import Mathlib

/-!
Shallow embedding of `scripts/validate-workflows/main.go` (validate-workflows).

The program checks GitHub Actions workflow files.  Its only state is the
`WorkflowValidator` record (a verbose flag and two append-only diagnostic
lists) together with what it has written to standard output.  Everything the
program asks of the operating system and of the YAML library is collected in
the `World` record, which every operation takes as an argument: theorems
quantify over all worlds, so they hold whatever the file system contains and
however the library decodes a given byte string.

A Go `map[string]interface{}` is represented by the list of its entries.
Key tests `m[k]` are `List.lookup k m`; `for k, v := range m` visits the
entries in list order (Go leaves the order unspecified, so the order of the
list is part of the input).
-/

namespace ValidateWorkflows

/-! ## Data model -/

/-- Dynamically typed value obtained by decoding a document into `interface{}`.
`seq` is a Go `[]interface{}`, `map` is a Go `map[string]interface{}`; `null`
is the nil interface and `scalar` stands for every other dynamic value (all of
them fail both type assertions the program makes). -/
inductive Value where
  | null : Value
  | scalar (text : String) : Value
  | seq (items : List Value) : Value
  | map (entries : List (String × Value)) : Value

/-- Entries of a Go `map[string]interface{}`, in iteration order. -/
abbrev GoMap := List (String × Value)

/-- Error returned by `os.Stat`: whether `os.IsNotExist` holds of it, and its text. -/
structure StatError where
  isNotExist : Bool
  text : String

/-- One call that `filepath.WalkDir` makes to its callback: the path, whether the
entry is a directory, and the error handed to the callback (if any). -/
structure WalkEntry where
  path : String
  isDir : Bool
  err : Option String

/-- The operating system and the YAML library, as seen by the program.
* `stat p` is `os.Stat(p)`: an error, or `IsDir()` of the file info;
* `readFile p` is `os.ReadFile(p)`: the error text, or the bytes read;
* `walkDir p` is the sequence of callback invocations `filepath.WalkDir(p, fn)`
  makes as long as the callback returns `nil`;
* `unmarshalAny d` is `yaml.Unmarshal(d, &content)` for `content interface{}`;
* `unmarshalMap d` is `yaml.Unmarshal(d, &workflow)` for
  `workflow map[string]interface{}`: the error text, or the resulting map
  (`none` when the map is left `nil`). -/
structure World where
  stat : String → Except StatError Bool
  readFile : String → Except String String
  walkDir : String → List WalkEntry
  unmarshalAny : String → Except String Value
  unmarshalMap : String → Except String (Option GoMap)

/-- The Go struct `WorkflowValidator`. -/
structure WorkflowValidator where
  verbose : Bool
  errors : List String
  warnings : List String
  deriving DecidableEq, Repr

/-- A running process: the validator and the chunks written to standard output so far. -/
structure Run where
  v : WorkflowValidator
  stdout : List String
  deriving DecidableEq, Repr

/-- `NewValidator(verbose)`. -/
def NewValidator (verbose : Bool) : WorkflowValidator :=
  { verbose := verbose, errors := [], warnings := [] }

/-- A process that has just created its validator and printed nothing. -/
def Run.start (verbose : Bool) : Run :=
  { v := NewValidator verbose, stdout := [] }

/-- `fmt.Println(s)`. -/
def Run.println (s : String) (r : Run) : Run :=
  { r with stdout := r.stdout ++ [s ++ "\n"] }

/-- `fmt.Printf` of an already formatted string. -/
def Run.print (s : String) (r : Run) : Run :=
  { r with stdout := r.stdout ++ [s] }

/-- `v.errors = append(v.errors, msg)`. -/
def Run.addError (msg : String) (r : Run) : Run :=
  { r with v := { r.v with errors := r.v.errors ++ [msg] } }

/-- `v.warnings = append(v.warnings, msg)`. -/
def Run.addWarning (msg : String) (r : Run) : Run :=
  { r with v := { r.v with warnings := r.v.warnings ++ [msg] } }

/-- `(*WorkflowValidator).log`: print the message when verbose. -/
def log (message : String) (r : Run) : Run :=
  if r.v.verbose then r.println message else r

/-! ## Syntax check -/

/-- `(*WorkflowValidator).ValidateYAMLSyntax`. -/
def ValidateYAMLSyntax (w : World) (filePath : String) (r : Run) : Bool × Run :=
  match w.readFile filePath with
  | .error err => (false, r.addError ("✗ " ++ filePath ++ ": Error reading file: " ++ err))
  | .ok data =>
    match w.unmarshalAny data with
    | .error err => (false, r.addError ("✗ " ++ filePath ++ ": YAML syntax error: " ++ err))
    | .ok _ => (true, log ("✓ " ++ filePath ++ ": Valid YAML syntax") r)

/-! ## Structure check -/

/-- The loop `for jobName, jobInterface := range jobs` of
`ValidateWorkflowStructure`: `false` is the early `return false`, `true` means
the loop ran to its end. -/
def validateJobs (filePath : String) : List (String × Value) → Run → Bool × Run
  | [], r => (true, r)
  | (jobName, jobInterface) :: rest, r =>
    match jobInterface with
    | .map job =>
      match List.lookup "runs-on" job with
      | none =>
        (false, r.addError ("✗ " ++ filePath ++ ": Job '" ++ jobName ++ "' missing required 'runs-on' field"))
      | some _ =>
        match List.lookup "steps" job with
        | none =>
          (false, r.addError ("✗ " ++ filePath ++ ": Job '" ++ jobName ++ "' missing required 'steps' field"))
        | some (.seq steps) =>
          if steps.length = 0 then
            validateJobs filePath rest
              (r.addWarning ("⚠ " ++ filePath ++ ": Job '" ++ jobName ++ "' has no steps"))
          else
            validateJobs filePath rest r
        | some _ =>
          (false, r.addError ("✗ " ++ filePath ++ ": Job '" ++ jobName ++ "' 'steps' must be a list"))
    | _ =>
      (false, r.addError ("✗ " ++ filePath ++ ": Job '" ++ jobName ++ "' must be a mapping"))

/-- The test `if _, ok := workflow["name"]; !ok` of `ValidateWorkflowStructure`
with its warning. -/
def checkName (filePath : String) (workflow : GoMap) (r : Run) : Run :=
  match List.lookup "name" workflow with
  | none => r.addWarning ("⚠ " ++ filePath ++ ": Missing 'name' field (recommended)")
  | some _ => r

/-- The part of `ValidateWorkflowStructure` that follows the `workflow == nil`
test: the checks on a decoded, non-nil top-level map. -/
def checkWorkflow (filePath : String) (workflow : GoMap) (r : Run) : Bool × Run :=
  let r1 := checkName filePath workflow r
  match List.lookup "on" workflow with
  | none => (false, r1.addError ("✗ " ++ filePath ++ ": Missing required 'on' field"))
  | some _ =>
    match List.lookup "jobs" workflow with
    | none => (false, r1.addError ("✗ " ++ filePath ++ ": Missing required 'jobs' field"))
    | some (.map jobs) =>
      if jobs.length = 0 then
        (false, r1.addError ("✗ " ++ filePath ++ ": 'jobs' must contain at least one job"))
      else
        match validateJobs filePath jobs r1 with
        | (false, r2) => (false, r2)
        | (true, r2) => (true, log ("✓ " ++ filePath ++ ": Valid workflow structure") r2)
    | some _ => (false, r1.addError ("✗ " ++ filePath ++ ": 'jobs' must be a mapping"))

/-- `(*WorkflowValidator).ValidateWorkflowStructure`. -/
def ValidateWorkflowStructure (w : World) (filePath : String) (r : Run) : Bool × Run :=
  match w.readFile filePath with
  | .error err => (false, r.addError ("✗ " ++ filePath ++ ": Error reading file: " ++ err))
  | .ok data =>
    match w.unmarshalMap data with
    | .error err => (false, r.addError ("✗ " ++ filePath ++ ": Error parsing YAML: " ++ err))
    | .ok none => (false, r.addError ("✗ " ++ filePath ++ ": Workflow must be a YAML mapping"))
    | .ok (some workflow) => checkWorkflow filePath workflow r

/-! ## Files and directories -/

/-- Scan of `filepath.Ext` from the last character towards the first: the
argument is the reversed path, `acc` the characters already passed. -/
def extScan : List Char → List Char → List Char
  | [], _ => []
  | c :: cs, acc =>
    if c = '/' then [] else if c = '.' then c :: acc else extScan cs (c :: acc)

/-- `filepath.Ext(path)` (with `/` as the path separator): the suffix starting
at the last dot of the last path element, or the empty string. -/
def Ext (path : String) : String :=
  String.mk (extScan path.data.reverse [])

/-- `strings.ToLower`.  The program only compares the result with `.yml` and
`.yaml`, and the only characters whose lower case is one of `.`, `y`, `m`, `l`,
`a` are these five and `Y`, `M`, `L`, `A`; lowering the ASCII letters therefore
decides the same comparisons as the Unicode lowering of Go. -/
def ToLower (s : String) : String :=
  String.mk (s.data.map Char.toLower)

/-- The condition `_, err := os.Stat(filePath); os.IsNotExist(err)` of `ValidateFile`. -/
def statNotExist (w : World) (filePath : String) : Bool :=
  match w.stat filePath with
  | .error e => e.isNotExist
  | .ok _ => false

/-- The extension test of `ValidateFile` with its warning. -/
def checkExtension (filePath : String) (r : Run) : Run :=
  let ext := ToLower (Ext filePath)
  if ext ≠ ".yml" ∧ ext ≠ ".yaml" then
    r.addWarning ("⚠ " ++ filePath ++ ": File extension should be .yml or .yaml")
  else r

/-- `(*WorkflowValidator).ValidateFile`. -/
def ValidateFile (w : World) (filePath : String) (r : Run) : Bool × Run :=
  let r0 := log ("\nValidating " ++ filePath ++ "...") r
  if statNotExist w filePath then
    (false, r0.addError ("✗ " ++ filePath ++ ": File does not exist"))
  else
    let r1 := checkExtension filePath r0
    match ValidateYAMLSyntax w filePath r1 with
    | (false, r2) => (false, r2)
    | (true, r2) =>
      match ValidateWorkflowStructure w filePath r2 with
      | (false, r3) => (false, r3)
      | (true, r3) => (true, r3)

/-- The callback given to `filepath.WalkDir`, run over the calls the walk makes:
the first call that carries an error ends the walk with that error, otherwise
the paths of the non-directories with a workflow extension are collected. -/
def collectWorkflowFiles : List WalkEntry → List String → Except String (List String)
  | [], workflowFiles => .ok workflowFiles
  | e :: es, workflowFiles =>
    match e.err with
    | some err => .error err
    | none =>
      if !e.isDir then
        let ext := ToLower (Ext e.path)
        if ext = ".yml" ∨ ext = ".yaml" then
          collectWorkflowFiles es (workflowFiles ++ [e.path])
        else
          collectWorkflowFiles es workflowFiles
      else
        collectWorkflowFiles es workflowFiles

/-- The loop `for _, file := range workflowFiles` of `ValidateDirectory`. -/
def validateFiles (w : World) : List String → Bool → Run → Bool × Run
  | [], allValid, r => (allValid, r)
  | file :: rest, allValid, r =>
    match ValidateFile w file r with
    | (false, r1) => validateFiles w rest false r1
    | (true, r1) => validateFiles w rest allValid r1

/-- `(*WorkflowValidator).ValidateDirectory`. -/
def ValidateDirectory (w : World) (dirpath : String) (r : Run) : Bool × Run :=
  match w.stat dirpath with
  | .error e => (false, r.addError ("✗ " ++ dirpath ++ ": " ++ e.text))
  | .ok isDir =>
    if !isDir then
      (false, r.addError ("✗ " ++ dirpath ++ ": Not a directory"))
    else
      match collectWorkflowFiles (w.walkDir dirpath) [] with
      | .error err =>
        (false, r.addError ("✗ " ++ dirpath ++ ": Error reading directory: " ++ err))
      | .ok workflowFiles =>
        if workflowFiles.length = 0 then
          (true, r.addWarning ("⚠ " ++ dirpath ++ ": No workflow files found"))
        else
          validateFiles w workflowFiles true r

/-! ## Report and run controller -/

/-- `strings.Repeat("=", 70)`. -/
def banner : String :=
  String.mk (List.replicate 70 '=')

/-- The loops of `PrintSummary` printing each message as `"  %s\n"`. -/
def printAll (msgs : List String) (r : Run) : Run :=
  msgs.foldl (fun acc m => acc.print ("  " ++ m ++ "\n")) r

/-- `(*WorkflowValidator).PrintSummary`. -/
def PrintSummary (r : Run) : Run :=
  let r1 := r.println ("\n" ++ banner)
  let r2 := r1.println "Validation Summary"
  let r3 := r2.println banner
  let r4 :=
    if r3.v.warnings.length > 0 then
      printAll r3.v.warnings (r3.print ("\n⚠ Warnings (" ++ toString r3.v.warnings.length ++ "):\n"))
    else r3
  let r5 :=
    if r4.v.errors.length > 0 then
      printAll r4.v.errors (r4.print ("\n✗ Errors (" ++ toString r4.v.errors.length ++ "):\n"))
    else
      r4.println "\n✓ All validations passed!"
  r5.println banner

/-- `(*WorkflowValidator).HasErrors`. -/
def HasErrors (v : WorkflowValidator) : Bool :=
  v.errors.length > 0

/-- Body of the loop `for _, path := range flag.Args()` of `main`, for one path:
the boolean is `false` where the body sets `allValid = false`. -/
def processPath (w : World) (path : String) (r : Run) : Bool × Run :=
  match w.stat path with
  | .error _ => (false, r.addError ("✗ " ++ path ++ ": Not found"))
  | .ok isDir =>
    if isDir then ValidateDirectory w path r else ValidateFile w path r

/-- The loop `for _, path := range flag.Args()` of `main`. -/
def runLoop (w : World) : List String → Bool → Run → Bool × Run
  | [], allValid, r => (allValid, r)
  | path :: rest, allValid, r =>
    match processPath w path r with
    | (false, r1) => runLoop w rest false r1
    | (true, r1) => runLoop w rest allValid r1

/-- The usage text `main` prints to standard output when no path is given
(`flag.PrintDefaults` writes to standard error). -/
def usage (r : Run) : Run :=
  ((((r.println "Usage: validate-workflows [options] <path...>").println
    "\nValidates GitHub Actions workflow files").println
    "\nOptions:").println
    "\nArguments:").println
    "  path    Workflow file(s) or directory to validate"

/-- The function `main`, after flag parsing: `verbose` is the value of the
`-verbose`/`-v` flag and `args` is `flag.Args()`.  The result is the exit code
of the process and its final state; no validator exists on the usage path. -/
def main (w : World) (verbose : Bool) (args : List String) : Nat × Option WorkflowValidator × List String :=
  if args.length = 0 then
    (1, none, (usage { v := NewValidator verbose, stdout := [] }).stdout)
  else
    match runLoop w args true (Run.start verbose) with
    | (allValid, r) =>
      let r1 := PrintSummary r
      if !allValid || HasErrors r1.v then (1, some r1.v, r1.stdout) else (0, some r1.v, r1.stdout)

/-! ## Auxiliary notions used in the statements -/

/-- The state `d` replayed after `r`: the diagnostics and the output of `d`
follow those of `r`; the verbose flag is that of `d`. -/
def Run.extend (r d : Run) : Run :=
  { v := { verbose := d.v.verbose,
           errors := r.v.errors ++ d.v.errors,
           warnings := r.v.warnings ++ d.v.warnings },
    stdout := r.stdout ++ d.stdout }

/-- Claim-side predicate, the job rules as the specification words them: the job
body is a mapping that contains the key `runs-on` and contains the key `steps`
with a sequence (possibly empty) as its value. -/
def JobWellFormed (body : Value) : Prop :=
  ∃ job : GoMap, body = Value.map job
    ∧ (∃ x, List.lookup "runs-on" job = some x)
    ∧ (∃ steps, List.lookup "steps" job = some (Value.seq steps))

/-- Claim-side predicate, the schema as the specification words it: the top-level
mapping contains `on` and contains `jobs`, the value of `jobs` is a non-empty
mapping, and every job body in it is well formed. -/
def WorkflowWellFormed (workflow : GoMap) : Prop :=
  (∃ x, List.lookup "on" workflow = some x)
    ∧ ∃ jobs : GoMap, List.lookup "jobs" workflow = some (Value.map jobs)
        ∧ jobs ≠ [] ∧ ∀ jb ∈ jobs, JobWellFormed jb.2

/-- Several warnings appended at once. -/
def Run.addWarnings (msgs : List String) (r : Run) : Run :=
  { r with v := { r.v with warnings := r.v.warnings ++ msgs } }

/-- Claim-side: the job body is a mapping whose `steps` is the empty sequence. -/
def hasEmptySteps : Value → Bool
  | Value.map job =>
    match List.lookup "steps" job with
    | some (Value.seq steps) => steps.isEmpty
    | _ => false
  | _ => false

/-- Claim-side: one "has no steps" warning for each job of the list whose `steps`
sequence is empty, in the order of the list, and none for the other jobs. -/
def noStepsWarnings (f : String) (jobs : GoMap) : List String :=
  (jobs.filter (fun jb => hasEmptySteps jb.2)).map
    (fun jb => "⚠ " ++ f ++ ": Job '" ++ jb.1 ++ "' has no steps")

/-- Claim-side: the missing-`name` warning when the mapping has no `name`, nothing otherwise. -/
def nameWarnings (f : String) (workflow : GoMap) : List String :=
  if (List.lookup "name" workflow).isSome then []
  else ["⚠ " ++ f ++ ": Missing 'name' field (recommended)"]

/-- Claim-side: the extension warning when the lower-cased extension of the path is
neither `.yml` nor `.yaml`, nothing otherwise. -/
def extensionWarnings (f : String) : List String :=
  if ToLower (Ext f) = ".yml" ∨ ToLower (Ext f) = ".yaml" then []
  else ["⚠ " ++ f ++ ": File extension should be .yml or .yaml"]

/-- Claim-side: the four errors that name the job `j` of the file `f`. -/
def jobErrors (f j : String) : List String :=
  [ "✗ " ++ f ++ ": Job '" ++ j ++ "' must be a mapping",
    "✗ " ++ f ++ ": Job '" ++ j ++ "' missing required 'runs-on' field",
    "✗ " ++ f ++ ": Job '" ++ j ++ "' missing required 'steps' field",
    "✗ " ++ f ++ ": Job '" ++ j ++ "' 'steps' must be a list" ]

/-- The state `r` with its verbose flag set to `b`. -/
def Run.withVerbose (b : Bool) (r : Run) : Run :=
  { r with v := { r.v with verbose := b } }

/-- The state `q` is a non-verbose state with the diagnostics of `l`, and what `q`
has printed is what `l` has printed with some chunks left out. -/
def Quieter (q l : Run) : Prop :=
  q.v.verbose = false ∧ q.v.errors = l.v.errors ∧ q.v.warnings = l.v.warnings
    ∧ q.stdout.Sublist l.stdout

/-- Claim-side: two results of an operation with the same boolean, the same
errors and the same warnings, the output of the first being the output of the
second with some chunks left out. -/
def SameOutcome (q l : Bool × Run) : Prop :=
  q.1 = l.1 ∧ q.2.v.errors = l.2.v.errors ∧ q.2.v.warnings = l.2.v.warnings
    ∧ q.2.stdout.Sublist l.2.stdout

/-! ## Example worlds -/

/-- The value of a well-formed job with two steps. -/
def sampleJob : Value :=
  Value.map [("runs-on", Value.scalar "ubuntu"),
             ("steps", Value.seq [Value.scalar "a", Value.scalar "b"])]

/-- A small file system.  The content of a file is its own path, and the YAML
library decodes
* `ok.yml` as `{on: push, jobs: {build: {runs-on: ubuntu, steps: [a, b]}}}`,
* `named.yml` as the same document with `name: x` in front,
* `two.yml` as `{on: push, jobs: {first: {runs-on: ubuntu}, second: <sampleJob>}}`,
* `noon.yml` as `{jobs: 3}`,
* `nosteps.yml` as `{name: x, on: push, jobs: {idle: {runs-on: ubuntu, steps: []}, build: <sampleJob>}}`,
* `nojobs.yml` as `{on: push, jobs: {}}`,
* `orphan.yml` as `{jobs: {first: {runs-on: ubuntu}, second: <sampleJob>}}`,
and fails on `bad.yml`; every other content is a null document.  The directory
`wf` holds `wf/ok.yml`, `wf/notes.txt`, `wf/noon.yml` and `wf/nosteps.yml`; the
path `gone` does not exist. -/
def sampleWorld : World where
  stat := fun p =>
    if p = "wf" then .ok true
    else if p = "gone" then .error { isNotExist := true, text := "stat gone: no such file or directory" }
    else .ok false
  readFile := fun p => .ok p
  walkDir := fun p =>
    if p = "wf" then
      [ { path := "wf", isDir := true, err := none },
        { path := "wf/ok.yml", isDir := false, err := none },
        { path := "wf/notes.txt", isDir := false, err := none },
        { path := "wf/noon.yml", isDir := false, err := none },
        { path := "wf/nosteps.yml", isDir := false, err := none } ]
    else []
  unmarshalAny := fun d =>
    if d = "bad.yml" then .error "yaml: line 1: did not find expected key" else .ok Value.null
  unmarshalMap := fun d =>
    if d = "ok.yml" ∨ d = "wf/ok.yml" then
      .ok (some [("on", Value.scalar "push"), ("jobs", Value.map [("build", sampleJob)])])
    else if d = "named.yml" then
      .ok (some [("name", Value.scalar "x"), ("on", Value.scalar "push"),
                 ("jobs", Value.map [("build", sampleJob)])])
    else if d = "two.yml" then
      .ok (some [("on", Value.scalar "push"),
                 ("jobs", Value.map [("first", Value.map [("runs-on", Value.scalar "ubuntu")]),
                                     ("second", sampleJob)])])
    else if d = "noon.yml" ∨ d = "wf/noon.yml" then
      .ok (some [("jobs", Value.scalar "3")])
    else if d = "nosteps.yml" ∨ d = "wf/nosteps.yml" then
      .ok (some [("name", Value.scalar "x"), ("on", Value.scalar "push"),
                 ("jobs", Value.map [("idle", Value.map [("runs-on", Value.scalar "ubuntu"),
                                                         ("steps", Value.seq [])]),
                                     ("build", sampleJob)])])
    else if d = "nojobs.yml" then
      .ok (some [("on", Value.scalar "push"), ("jobs", Value.map [])])
    else if d = "orphan.yml" then
      .ok (some [("jobs", Value.map [("first", Value.map [("runs-on", Value.scalar "ubuntu")]),
                                     ("second", sampleJob)])])
    else if d = "bad.yml" then .error "yaml: line 1: did not find expected key"
    else .ok none

/-- The sample world after `name: x` has been added to `ok.yml`. -/
def sampleWorldNamed : World :=
  { sampleWorld with
    unmarshalMap := fun d => sampleWorld.unmarshalMap (if d = "ok.yml" then "named.yml" else d) }

/-- Claim-side: the syntax check followed, when it passes, by the structure check. -/
def syntaxThenStructure (w : World) (f : String) (r : Run) : Bool × Run :=
  match ValidateYAMLSyntax w f r with
  | (false, r2) => (false, r2)
  | (true, r2) => ValidateWorkflowStructure w f r2

/-- A second small file system.  The content of a file is its own path; the YAML
library decodes `emptyjobs.yml` as `{name: x, on: push, jobs: {}}`, `build.YML`
and `build.txt` as `{on: push, jobs: {build: <sampleJob>}}`, and every other
content as a null document.  The directory `empty` holds only `empty/notes.txt`
and `empty/README`; the directory `locked` holds the subdirectory `locked/sub`,
which cannot be read; the path `gone` does not exist. -/
def sampleWorld2 : World where
  stat := fun p =>
    if p = "empty" ∨ p = "locked" then .ok true
    else if p = "gone" then
      .error { isNotExist := true, text := "stat gone: no such file or directory" }
    else .ok false
  readFile := fun p => .ok p
  walkDir := fun p =>
    if p = "empty" then
      [ { path := "empty", isDir := true, err := none },
        { path := "empty/notes.txt", isDir := false, err := none },
        { path := "empty/README", isDir := false, err := none } ]
    else if p = "locked" then
      [ { path := "locked", isDir := true, err := none },
        { path := "locked/sub", isDir := true, err := none },
        { path := "locked/sub", isDir := true,
          err := some "open locked/sub: permission denied" } ]
    else []
  unmarshalAny := fun _ => .ok Value.null
  unmarshalMap := fun d =>
    if d = "emptyjobs.yml" then
      .ok (some [("name", Value.scalar "x"), ("on", Value.scalar "push"),
                 ("jobs", Value.map [])])
    else if d = "build.YML" ∨ d = "build.txt" then
      .ok (some [("on", Value.scalar "push"), ("jobs", Value.map [("build", sampleJob)])])
    else .ok none

/-- The sample world with the two jobs of `two.yml` visited in the other order. -/
def sampleWorldSwapped : World :=
  { sampleWorld with
    unmarshalMap := fun d =>
      if d = "two.yml" then
        .ok (some [("on", Value.scalar "push"),
                   ("jobs", Value.map [("second", sampleJob),
                                       ("first", Value.map [("runs-on", Value.scalar "ubuntu")])])])
      else sampleWorld.unmarshalMap d }

/-- Two job bodies that break the job rules (no `runs-on`), and a family of file
systems over them.  The content of a file is its own path.  In
`orderWorld named swapped` the YAML library decodes
* `both.yml` as `{on: push, jobs: {a: {}, b: {}}}`, preceded by `name: x` when
  `named` holds, and with the job `b` visited before the job `a` when `swapped`
  holds;
* `idle.yml` as `{on: push, jobs: {a: {runs-on: u, steps: []}, b: {runs-on: u, steps: []}}}`
  with the same two options;
* `list.yml` as the sequence `[a]` into `interface{}`, and with an error into
  `map[string]interface{}`;
and every other content as a null document.  Every path is a file. -/
def orderWorld (named swapped : Bool) : World where
  stat := fun _ => .ok false
  readFile := fun p => .ok p
  walkDir := fun _ => []
  unmarshalAny := fun d =>
    if d = "list.yml" then .ok (Value.seq [Value.scalar "a"]) else .ok Value.null
  unmarshalMap := fun d =>
    if d = "both.yml" then
      .ok (some ((if named then [("name", Value.scalar "x")] else [])
            ++ [("on", Value.scalar "push"),
                ("jobs", Value.map
                  (if swapped then [("b", Value.map []), ("a", Value.map [])]
                   else [("a", Value.map []), ("b", Value.map [])]))]))
    else if d = "idle.yml" then
      .ok (some ((if named then [("name", Value.scalar "x")] else [])
            ++ [("on", Value.scalar "push"),
                ("jobs", Value.map
                  (if swapped then
                    [("b", Value.map [("runs-on", Value.scalar "u"), ("steps", Value.seq [])]),
                     ("a", Value.map [("runs-on", Value.scalar "u"), ("steps", Value.seq [])])]
                   else
                    [("a", Value.map [("runs-on", Value.scalar "u"), ("steps", Value.seq [])]),
                     ("b", Value.map [("runs-on", Value.scalar "u"), ("steps", Value.seq [])])]))]))
    else if d = "list.yml" then
      .error "yaml: unmarshal errors:\n  line 1: cannot unmarshal !!seq into map[string]interface \x7b\x7d"
    else .ok none

/-- Claim-side: two results of decoding one content into `map[string]interface{}`
that are the same up to the order in which the entries of `jobs` are visited:
either equal, or two maps that agree on every key but `jobs` and whose `jobs`
mappings hold the same entries. -/
def SameDecoding (x y : Except String (Option GoMap)) : Prop :=
  x = y
  ∨ ∃ wa wb ja jb : GoMap, x = .ok (some wa) ∧ y = .ok (some wb)
      ∧ (∀ k : String, k ≠ "jobs" → List.lookup k wa = List.lookup k wb)
      ∧ List.lookup "jobs" wa = some (Value.map ja)
      ∧ List.lookup "jobs" wb = some (Value.map jb)
      ∧ ja.Perm jb

/-- Claim-side: two worlds that present the same input (the same file system and
the same file contents) to two runs of the program, the runs being free to visit
the entries of every `jobs` mapping in different orders. -/
def SameInput (w1 w2 : World) : Prop :=
  w1.stat = w2.stat ∧ w1.readFile = w2.readFile ∧ w1.walkDir = w2.walkDir
    ∧ w1.unmarshalAny = w2.unmarshalAny
    ∧ ∀ d : String, SameDecoding (w1.unmarshalMap d) (w2.unmarshalMap d)

/-! ## Framing: every operation only appends -/

theorem extend_start (r : Run) : r.extend (Run.start r.v.verbose) = r := by
  cases r with
  | mk v out => cases v; simp [Run.extend, Run.start, NewValidator]

theorem extend_addError (r d : Run) (m : String) :
    (r.extend d).addError m = r.extend (d.addError m) := by
  simp [Run.extend, Run.addError]

theorem extend_addWarning (r d : Run) (m : String) :
    (r.extend d).addWarning m = r.extend (d.addWarning m) := by
  simp [Run.extend, Run.addWarning]

theorem extend_println (r d : Run) (m : String) :
    (r.extend d).println m = r.extend (d.println m) := by
  simp [Run.extend, Run.println]

theorem extend_log (r d : Run) (m : String) :
    log m (r.extend d) = r.extend (log m d) := by
  unfold log
  by_cases h : d.v.verbose = true
  · simp [Run.extend, Run.println, h]
  · simp [Run.extend, Run.println, h]

theorem ValidateYAMLSyntax_extend (w : World) (f : String) (r d : Run) :
    ValidateYAMLSyntax w f (r.extend d)
      = ((ValidateYAMLSyntax w f d).1, r.extend (ValidateYAMLSyntax w f d).2) := by
  unfold ValidateYAMLSyntax
  cases h1 : w.readFile f with
  | error e => simp [extend_addError]
  | ok data =>
    cases h2 : w.unmarshalAny data with
    | error e => simp [h2, extend_addError]
    | ok c => simp [h2, extend_log]

theorem validateJobs_extend (f : String) (jobs : List (String × Value)) :
    ∀ r d : Run, validateJobs f jobs (r.extend d)
      = ((validateJobs f jobs d).1, r.extend (validateJobs f jobs d).2) := by
  induction jobs with
  | nil => intro r d; simp [validateJobs]
  | cons jb rest ih =>
    intro r d
    obtain ⟨jobName, body⟩ := jb
    cases body with
    | null => simp [validateJobs, extend_addError]
    | scalar t => simp [validateJobs, extend_addError]
    | seq xs => simp [validateJobs, extend_addError]
    | map job =>
      simp only [validateJobs]
      cases List.lookup "runs-on" job with
      | none => simp [extend_addError]
      | some ro =>
        cases hs : List.lookup "steps" job with
        | none => simp [extend_addError]
        | some st =>
          cases st with
          | null => simp [extend_addError]
          | scalar t => simp [extend_addError]
          | map m => simp [extend_addError]
          | seq steps =>
            by_cases h0 : steps.length = 0
            · simp [h0, extend_addWarning, ih]
            · simp [h0, ih]

theorem extend_checkName (f : String) (wf : GoMap) (r d : Run) :
    checkName f wf (r.extend d) = r.extend (checkName f wf d) := by
  unfold checkName
  cases List.lookup "name" wf <;> simp [extend_addWarning]

theorem extend_checkExtension (f : String) (r d : Run) :
    checkExtension f (r.extend d) = r.extend (checkExtension f d) := by
  unfold checkExtension
  by_cases h : ToLower (Ext f) ≠ ".yml" ∧ ToLower (Ext f) ≠ ".yaml"
  · simp only [if_pos h, extend_addWarning]
  · simp only [if_neg h]

theorem checkWorkflow_extend (f : String) (wf : GoMap) (r d : Run) :
    checkWorkflow f wf (r.extend d)
      = ((checkWorkflow f wf d).1, r.extend (checkWorkflow f wf d).2) := by
  unfold checkWorkflow
  simp only [extend_checkName]
  generalize checkName f wf d = d1
  cases hon : List.lookup "on" wf with
  | none => simp [extend_addError]
  | some onv =>
    cases hjobs : List.lookup "jobs" wf with
    | none => simp [extend_addError]
    | some jv =>
      cases jv with
      | null => simp [extend_addError]
      | scalar t => simp [extend_addError]
      | seq xs => simp [extend_addError]
      | map jobs =>
        by_cases h0 : jobs.length = 0
        · simp [h0, extend_addError]
        · simp only [h0, if_false]
          rw [validateJobs_extend]
          cases hv : validateJobs f jobs d1 with
          | mk b r2 => cases b <;> simp [extend_log]

theorem ValidateWorkflowStructure_extend (w : World) (f : String) (r d : Run) :
    ValidateWorkflowStructure w f (r.extend d)
      = ((ValidateWorkflowStructure w f d).1, r.extend (ValidateWorkflowStructure w f d).2) := by
  unfold ValidateWorkflowStructure
  cases h1 : w.readFile f with
  | error e => simp [extend_addError]
  | ok data =>
    cases h2 : w.unmarshalMap data with
    | error e => simp [h2, extend_addError]
    | ok c =>
      cases c with
      | none => simp [h2, extend_addError]
      | some wf => simp [h2, checkWorkflow_extend]

theorem ValidateFile_extend (w : World) (f : String) (r d : Run) :
    ValidateFile w f (r.extend d)
      = ((ValidateFile w f d).1, r.extend (ValidateFile w f d).2) := by
  unfold ValidateFile
  simp only [extend_log, extend_checkExtension]
  generalize log ("\nValidating " ++ f ++ "...") d = d0
  cases hne : statNotExist w f with
  | true => simp [extend_addError]
  | false =>
    simp only [Bool.false_eq_true, if_false]
    rw [ValidateYAMLSyntax_extend]
    cases hy : ValidateYAMLSyntax w f (checkExtension f d0) with
    | mk b r2 =>
      cases b
      · simp
      · simp only []
        rw [ValidateWorkflowStructure_extend]
        cases hs : ValidateWorkflowStructure w f r2 with
        | mk b3 r3 => cases b3 <;> simp

theorem validateFiles_extend (w : World) (files : List String) :
    ∀ (a : Bool) (r d : Run), validateFiles w files a (r.extend d)
      = ((validateFiles w files a d).1, r.extend (validateFiles w files a d).2) := by
  induction files with
  | nil => intro a r d; simp [validateFiles]
  | cons file rest ih =>
    intro a r d
    simp only [validateFiles]
    rw [ValidateFile_extend]
    cases hf : ValidateFile w file d with
    | mk b r1 => cases b <;> simp [ih]

theorem ValidateDirectory_extend (w : World) (dir : String) (r d : Run) :
    ValidateDirectory w dir (r.extend d)
      = ((ValidateDirectory w dir d).1, r.extend (ValidateDirectory w dir d).2) := by
  unfold ValidateDirectory
  cases hst : w.stat dir with
  | error e => simp [extend_addError]
  | ok isDir =>
    cases isDir with
    | false => simp [extend_addError]
    | true =>
      cases hc : collectWorkflowFiles (w.walkDir dir) [] with
      | error e => simp [extend_addError]
      | ok files =>
        by_cases h0 : files.length = 0
        · simp [h0, extend_addWarning]
        · simp [h0, validateFiles_extend]

theorem processPath_extend (w : World) (path : String) (r d : Run) :
    processPath w path (r.extend d)
      = ((processPath w path d).1, r.extend (processPath w path d).2) := by
  unfold processPath
  cases hst : w.stat path with
  | error e => simp [extend_addError]
  | ok isDir =>
    cases isDir with
    | false => simp [ValidateFile_extend]
    | true => simp [ValidateDirectory_extend]

theorem runLoop_extend (w : World) (paths : List String) :
    ∀ (a : Bool) (r d : Run), runLoop w paths a (r.extend d)
      = ((runLoop w paths a d).1, r.extend (runLoop w paths a d).2) := by
  induction paths with
  | nil => intro a r d; simp [runLoop]
  | cons path rest ih =>
    intro a r d
    simp only [runLoop]
    rw [processPath_extend]
    cases hf : processPath w path d with
    | mk b r1 => cases b <;> simp [ih]

/-! ## Field projections of the primitive state changes -/

@[simp] theorem addError_errors (m : String) (r : Run) :
    (r.addError m).v.errors = r.v.errors ++ [m] := rfl

@[simp] theorem addError_warnings (m : String) (r : Run) :
    (r.addError m).v.warnings = r.v.warnings := rfl

@[simp] theorem addError_verbose (m : String) (r : Run) :
    (r.addError m).v.verbose = r.v.verbose := rfl

@[simp] theorem addError_stdout (m : String) (r : Run) :
    (r.addError m).stdout = r.stdout := rfl

@[simp] theorem addWarning_errors (m : String) (r : Run) :
    (r.addWarning m).v.errors = r.v.errors := rfl

@[simp] theorem addWarning_warnings (m : String) (r : Run) :
    (r.addWarning m).v.warnings = r.v.warnings ++ [m] := rfl

@[simp] theorem addWarning_verbose (m : String) (r : Run) :
    (r.addWarning m).v.verbose = r.v.verbose := rfl

@[simp] theorem addWarning_stdout (m : String) (r : Run) :
    (r.addWarning m).stdout = r.stdout := rfl

@[simp] theorem log_errors (m : String) (r : Run) : (log m r).v.errors = r.v.errors := by
  unfold log; split <;> rfl

@[simp] theorem log_warnings (m : String) (r : Run) : (log m r).v.warnings = r.v.warnings := by
  unfold log; split <;> rfl

@[simp] theorem log_verbose (m : String) (r : Run) : (log m r).v.verbose = r.v.verbose := by
  unfold log; split <;> rfl

@[simp] theorem checkName_errors (f : String) (wf : GoMap) (r : Run) :
    (checkName f wf r).v.errors = r.v.errors := by
  unfold checkName; split <;> rfl

@[simp] theorem checkName_verbose (f : String) (wf : GoMap) (r : Run) :
    (checkName f wf r).v.verbose = r.v.verbose := by
  unfold checkName; split <;> rfl

@[simp] theorem checkExtension_errors (f : String) (r : Run) :
    (checkExtension f r).v.errors = r.v.errors := by
  unfold checkExtension; simp only []; split <;> rfl

@[simp] theorem checkExtension_verbose (f : String) (r : Run) :
    (checkExtension f r).v.verbose = r.v.verbose := by
  unfold checkExtension; simp only []; split <;> rfl

/-! ## Error counting: a failed check appends one error, a passed one none -/

theorem ValidateYAMLSyntax_count (w : World) (f : String) (r : Run) :
    (ValidateYAMLSyntax w f r).2.v.errors.length
      = r.v.errors.length + (if (ValidateYAMLSyntax w f r).1 = true then 0 else 1) := by
  unfold ValidateYAMLSyntax
  cases h1 : w.readFile f with
  | error e => simp
  | ok data =>
    cases h2 : w.unmarshalAny data with
    | error e => simp [h2]
    | ok c => simp [h2]

theorem validateJobs_count (f : String) (jobs : List (String × Value)) :
    ∀ r : Run, (validateJobs f jobs r).2.v.errors.length
      = r.v.errors.length + (if (validateJobs f jobs r).1 = true then 0 else 1) := by
  induction jobs with
  | nil => intro r; simp [validateJobs]
  | cons jb rest ih =>
    intro r
    obtain ⟨jobName, body⟩ := jb
    cases body with
    | null => simp [validateJobs]
    | scalar t => simp [validateJobs]
    | seq xs => simp [validateJobs]
    | map job =>
      cases hr : List.lookup "runs-on" job with
      | none => simp [validateJobs, hr]
      | some ro =>
        cases hs : List.lookup "steps" job with
        | none => simp [validateJobs, hr, hs]
        | some st =>
          cases st with
          | null => simp [validateJobs, hr, hs]
          | scalar t => simp [validateJobs, hr, hs]
          | map m => simp [validateJobs, hr, hs]
          | seq steps =>
            by_cases h0 : steps.length = 0
            · simp only [validateJobs, hr, hs, h0, if_true]
              rw [ih]; simp
            · simp only [validateJobs, hr, hs, h0, if_false]
              rw [ih]

theorem checkWorkflow_count (f : String) (wf : GoMap) (r : Run) :
    (checkWorkflow f wf r).2.v.errors.length
      = r.v.errors.length + (if (checkWorkflow f wf r).1 = true then 0 else 1) := by
  unfold checkWorkflow
  rw [← checkName_errors f wf r]
  generalize checkName f wf r = r1
  cases hon : List.lookup "on" wf with
  | none => simp
  | some onv =>
    cases hjobs : List.lookup "jobs" wf with
    | none => simp
    | some jv =>
      cases jv with
      | null => simp
      | scalar t => simp
      | seq xs => simp
      | map jobs =>
        by_cases h0 : jobs.length = 0
        · simp [h0]
        · simp only [h0, if_false]
          have hc := validateJobs_count f jobs r1
          cases hv : validateJobs f jobs r1 with
          | mk b r2 =>
            rw [hv] at hc
            cases b <;> simp_all

theorem ValidateWorkflowStructure_count (w : World) (f : String) (r : Run) :
    (ValidateWorkflowStructure w f r).2.v.errors.length
      = r.v.errors.length + (if (ValidateWorkflowStructure w f r).1 = true then 0 else 1) := by
  unfold ValidateWorkflowStructure
  cases h1 : w.readFile f with
  | error e => simp
  | ok data =>
    cases h2 : w.unmarshalMap data with
    | error e => simp [h2]
    | ok c =>
      cases c with
      | none => simp [h2]
      | some wf => simp only [h2]; exact checkWorkflow_count f wf r

theorem ValidateFile_count (w : World) (f : String) (r : Run) :
    (ValidateFile w f r).2.v.errors.length
      = r.v.errors.length + (if (ValidateFile w f r).1 = true then 0 else 1) := by
  unfold ValidateFile
  rw [← log_errors ("\nValidating " ++ f ++ "...") r]
  generalize log ("\nValidating " ++ f ++ "...") r = r0
  cases hne : statNotExist w f with
  | true => simp
  | false =>
    simp only [Bool.false_eq_true, if_false]
    rw [← checkExtension_errors f r0]
    generalize checkExtension f r0 = r1
    have hy := ValidateYAMLSyntax_count w f r1
    cases hv : ValidateYAMLSyntax w f r1 with
    | mk b r2 =>
      rw [hv] at hy
      cases b
      · simp_all
      · have hs := ValidateWorkflowStructure_count w f r2
        cases hw : ValidateWorkflowStructure w f r2 with
        | mk b3 r3 =>
          rw [hw] at hs
          cases b3 <;> simp_all

theorem validateFiles_errors (w : World) (files : List String) :
    ∀ (a : Bool) (r : Run),
      r.v.errors.length ≤ (validateFiles w files a r).2.v.errors.length
      ∧ ((validateFiles w files a r).1 = true
          ↔ a = true ∧ (validateFiles w files a r).2.v.errors.length = r.v.errors.length) := by
  induction files with
  | nil => intro a r; simp [validateFiles]
  | cons file rest ih =>
    intro a r
    have hf := ValidateFile_count w file r
    simp only [validateFiles]
    cases hv : ValidateFile w file r with
    | mk b r1 =>
      rw [hv] at hf
      cases b
      · have h := ih false r1
        simp only [Bool.false_eq_true, if_false] at hf
        simp only []
        constructor
        · omega
        · constructor
          · intro ht; exact absurd (h.2.mp ht).1 (by simp)
          · intro ht; omega
      · have h := ih a r1
        simp only [if_true, Nat.add_zero] at hf
        simp only []
        constructor
        · omega
        · rw [h.2, hf]

theorem ValidateDirectory_errors (w : World) (dir : String) (r : Run) :
    r.v.errors.length ≤ (ValidateDirectory w dir r).2.v.errors.length
    ∧ ((ValidateDirectory w dir r).1 = true
        ↔ (ValidateDirectory w dir r).2.v.errors.length = r.v.errors.length) := by
  unfold ValidateDirectory
  cases hst : w.stat dir with
  | error e => simp
  | ok isDir =>
    cases isDir with
    | false => simp
    | true =>
      cases hc : collectWorkflowFiles (w.walkDir dir) [] with
      | error e => simp
      | ok files =>
        by_cases h0 : files.length = 0
        · simp [h0]
        · have h := validateFiles_errors w files true r
          simp only [h0, if_false, Bool.not_true, Bool.false_eq_true]
          exact ⟨h.1, by rw [h.2]; simp⟩

theorem processPath_errors (w : World) (path : String) (r : Run) :
    r.v.errors.length ≤ (processPath w path r).2.v.errors.length
    ∧ ((processPath w path r).1 = true
        ↔ (processPath w path r).2.v.errors.length = r.v.errors.length) := by
  unfold processPath
  cases hst : w.stat path with
  | error e => simp
  | ok isDir =>
    cases isDir with
    | true => simpa using ValidateDirectory_errors w path r
    | false =>
      have hf := ValidateFile_count w path r
      simp only [Bool.false_eq_true, if_false]
      cases hb : (ValidateFile w path r).1 with
      | false => rw [hb] at hf; simp at hf; constructor <;> [omega; (simp; omega)]
      | true => rw [hb] at hf; simp at hf; constructor <;> [omega; (simp; omega)]

theorem runLoop_errors (w : World) (paths : List String) :
    ∀ (a : Bool) (r : Run),
      r.v.errors.length ≤ (runLoop w paths a r).2.v.errors.length
      ∧ ((runLoop w paths a r).1 = true
          ↔ a = true ∧ (runLoop w paths a r).2.v.errors.length = r.v.errors.length) := by
  induction paths with
  | nil => intro a r; simp [runLoop]
  | cons path rest ih =>
    intro a r
    have hf := processPath_errors w path r
    simp only [runLoop]
    cases hv : processPath w path r with
    | mk b r1 =>
      rw [hv] at hf
      cases b
      · have h := ih false r1
        have hlt : r.v.errors.length < r1.v.errors.length := by
          have h1 := hf.1
          have h2 := hf.2
          simp only [Bool.false_eq_true, false_iff] at h2
          simp only [] at h1 h2
          omega
        simp only []
        constructor
        · omega
        · constructor
          · intro ht; exact absurd (h.2.mp ht).1 (by simp)
          · intro ht; omega
      · have h := ih a r1
        have heq : r1.v.errors.length = r.v.errors.length := by
          have h2 := hf.2
          simp only [true_iff] at h2
          exact h2
        simp only []
        constructor
        · omega
        · rw [h.2, heq]

/-- What an operation appends to the error list is empty exactly when the
length of the list is unchanged. -/
theorem errors_unchanged_iff {r res d : Run} (h : res = r.extend d) :
    res.v.errors = r.v.errors ↔ res.v.errors.length = r.v.errors.length := by
  subst h
  simp [Run.extend]

/-! ## Framing from a fresh state -/

theorem ValidateYAMLSyntax_frame (w : World) (f : String) (r : Run) :
    ValidateYAMLSyntax w f r
      = ((ValidateYAMLSyntax w f (Run.start r.v.verbose)).1,
          r.extend (ValidateYAMLSyntax w f (Run.start r.v.verbose)).2) := by
  have h := ValidateYAMLSyntax_extend w f r (Run.start r.v.verbose)
  rwa [extend_start] at h

theorem ValidateWorkflowStructure_frame (w : World) (f : String) (r : Run) :
    ValidateWorkflowStructure w f r
      = ((ValidateWorkflowStructure w f (Run.start r.v.verbose)).1,
          r.extend (ValidateWorkflowStructure w f (Run.start r.v.verbose)).2) := by
  have h := ValidateWorkflowStructure_extend w f r (Run.start r.v.verbose)
  rwa [extend_start] at h

theorem ValidateFile_frame (w : World) (f : String) (r : Run) :
    ValidateFile w f r
      = ((ValidateFile w f (Run.start r.v.verbose)).1,
          r.extend (ValidateFile w f (Run.start r.v.verbose)).2) := by
  have h := ValidateFile_extend w f r (Run.start r.v.verbose)
  rwa [extend_start] at h

theorem ValidateDirectory_frame (w : World) (dir : String) (r : Run) :
    ValidateDirectory w dir r
      = ((ValidateDirectory w dir (Run.start r.v.verbose)).1,
          r.extend (ValidateDirectory w dir (Run.start r.v.verbose)).2) := by
  have h := ValidateDirectory_extend w dir r (Run.start r.v.verbose)
  rwa [extend_start] at h

theorem processPath_frame (w : World) (path : String) (r : Run) :
    processPath w path r
      = ((processPath w path (Run.start r.v.verbose)).1,
          r.extend (processPath w path (Run.start r.v.verbose)).2) := by
  have h := processPath_extend w path r (Run.start r.v.verbose)
  rwa [extend_start] at h

/-! ## The structure check decides the schema -/

theorem validateJobs_true_iff (f : String) (jobs : List (String × Value)) :
    ∀ r : Run, (validateJobs f jobs r).1 = true ↔ ∀ jb ∈ jobs, JobWellFormed jb.2 := by
  induction jobs with
  | nil => intro r; simp [validateJobs]
  | cons jb rest ih =>
    intro r
    obtain ⟨jobName, body⟩ := jb
    cases body with
    | null => simp [validateJobs, JobWellFormed]
    | scalar t => simp [validateJobs, JobWellFormed]
    | seq xs => simp [validateJobs, JobWellFormed]
    | map job =>
      cases hr : List.lookup "runs-on" job with
      | none => simp [validateJobs, JobWellFormed, hr]
      | some ro =>
        cases hs : List.lookup "steps" job with
        | none => simp [validateJobs, JobWellFormed, hr, hs]
        | some st =>
          cases st with
          | null => simp [validateJobs, JobWellFormed, hr, hs]
          | scalar t => simp [validateJobs, JobWellFormed, hr, hs]
          | map m => simp [validateJobs, JobWellFormed, hr, hs]
          | seq steps =>
            have hwf : JobWellFormed (Value.map job) := ⟨job, rfl, ⟨ro, hr⟩, ⟨steps, hs⟩⟩
            by_cases h0 : steps.length = 0
            · simp only [validateJobs, hr, hs, h0, if_true]
              rw [ih]; simp [hwf]
            · simp only [validateJobs, hr, hs, h0, if_false]
              rw [ih]; simp [hwf]

theorem checkWorkflow_true_iff (f : String) (wf : GoMap) (r : Run) :
    (checkWorkflow f wf r).1 = true ↔ WorkflowWellFormed wf := by
  unfold checkWorkflow WorkflowWellFormed
  generalize checkName f wf r = r1
  cases hon : List.lookup "on" wf with
  | none => simp
  | some onv =>
    cases hjobs : List.lookup "jobs" wf with
    | none => simp
    | some jv =>
      cases jv with
      | null => simp
      | scalar t => simp
      | seq xs => simp
      | map jobs =>
        by_cases h0 : jobs.length = 0
        · have : jobs = [] := List.length_eq_zero.mp h0
          simp [this]
        · have hne : jobs ≠ [] := fun h => h0 (by simp [h])
          have hj := validateJobs_true_iff f jobs r1
          simp only [h0, if_false]
          cases hv : validateJobs f jobs r1 with
          | mk b r2 =>
            rw [hv] at hj
            cases b
            · simp only [Bool.false_eq_true, false_iff] at hj
              simp only [Bool.false_eq_true, false_iff]
              rintro ⟨_, jobs1, h1, _, h2⟩
              cases h1
              exact hj h2
            · simp only [true_iff] at hj
              simp only [true_iff]
              exact ⟨⟨onv, rfl⟩, jobs, rfl, hne, hj⟩

/-! ## The `name` key only decides one warning -/

theorem checkWorkflow_without_name (f : String) (wa wb : GoMap) (r : Run)
    (ha : List.lookup "name" wa = none)
    (hb : ∃ x, List.lookup "name" wb = some x)
    (hsame : ∀ k : String, k ≠ "name" → List.lookup k wa = List.lookup k wb) :
    checkWorkflow f wa r
      = checkWorkflow f wb (r.addWarning ("⚠ " ++ f ++ ": Missing 'name' field (recommended)")) := by
  obtain ⟨x, hx⟩ := hb
  have hon : List.lookup "on" wa = List.lookup "on" wb := hsame "on" (by decide)
  have hjobs : List.lookup "jobs" wa = List.lookup "jobs" wb := hsame "jobs" (by decide)
  unfold checkWorkflow checkName
  simp only [ha, hx, hon, hjobs]

/-! ## The job loop: warnings of the well-formed jobs, then the first error -/

theorem addWarnings_nil (r : Run) : r.addWarnings [] = r := by
  cases r with
  | mk v out => cases v; simp [Run.addWarnings]

theorem addWarning_addWarnings (m : String) (ms : List String) (r : Run) :
    (r.addWarning m).addWarnings ms = r.addWarnings (m :: ms) := by
  simp [Run.addWarnings, Run.addWarning]

theorem addWarnings_addWarnings (ms ns : List String) (r : Run) :
    (r.addWarnings ms).addWarnings ns = r.addWarnings (ms ++ ns) := by
  simp [Run.addWarnings]

theorem checkName_eq (f : String) (wf : GoMap) (r : Run) :
    checkName f wf r = r.addWarnings (nameWarnings f wf) := by
  unfold checkName nameWarnings
  cases List.lookup "name" wf with
  | none => simp [Run.addWarnings, Run.addWarning]
  | some x => simp [addWarnings_nil]

theorem validateJobs_wellFormed_append (f : String) (pre rest : List (String × Value)) :
    ∀ r : Run, (∀ jb ∈ pre, JobWellFormed jb.2) →
      validateJobs f (pre ++ rest) r
        = validateJobs f rest (r.addWarnings (noStepsWarnings f pre)) := by
  induction pre with
  | nil => intro r _; simp [noStepsWarnings, addWarnings_nil]
  | cons jb pre ih =>
    intro r hall
    obtain ⟨jobName, body⟩ := jb
    have hrest : ∀ jb ∈ pre, JobWellFormed jb.2 := fun x hx => hall x (List.mem_cons_of_mem _ hx)
    obtain ⟨job, hbody, ⟨ro, hr⟩, ⟨steps, hs⟩⟩ := hall (jobName, body) (List.mem_cons_self _ _)
    simp only at hbody
    subst hbody
    cases steps with
    | nil =>
      simp only [List.cons_append, validateJobs, hr, hs, List.length_nil, if_true, List.append_eq]
      rw [ih _ hrest, addWarning_addWarnings]
      simp [noStepsWarnings, hasEmptySteps, hs]
    | cons s ss =>
      simp only [List.cons_append, validateJobs, hr, hs, List.length_cons, List.append_eq]
      rw [if_neg (by omega), ih _ hrest]
      simp [noStepsWarnings, hasEmptySteps, hs]

theorem validateJobs_first_bad (f j : String) (body : Value) (post : List (String × Value))
    (r : Run) (hbad : ¬ JobWellFormed body) :
    ∃ e, e ∈ jobErrors f j ∧ validateJobs f ((j, body) :: post) r = (false, r.addError e) := by
  have m1 : "✗ " ++ f ++ ": Job '" ++ j ++ "' must be a mapping" ∈ jobErrors f j := by
    simp [jobErrors]
  have m2 : "✗ " ++ f ++ ": Job '" ++ j ++ "' missing required 'runs-on' field" ∈ jobErrors f j := by
    simp [jobErrors]
  have m3 : "✗ " ++ f ++ ": Job '" ++ j ++ "' missing required 'steps' field" ∈ jobErrors f j := by
    simp [jobErrors]
  have m4 : "✗ " ++ f ++ ": Job '" ++ j ++ "' 'steps' must be a list" ∈ jobErrors f j := by
    simp [jobErrors]
  cases body with
  | null => exact ⟨_, m1, by simp [validateJobs]⟩
  | scalar t => exact ⟨_, m1, by simp [validateJobs]⟩
  | seq xs => exact ⟨_, m1, by simp [validateJobs]⟩
  | map job =>
    cases hr : List.lookup "runs-on" job with
    | none => exact ⟨_, m2, by simp [validateJobs, hr]⟩
    | some ro =>
      cases hs : List.lookup "steps" job with
      | none => exact ⟨_, m3, by simp [validateJobs, hr, hs]⟩
      | some st =>
        cases st with
        | null => exact ⟨_, m4, by simp [validateJobs, hr, hs]⟩
        | scalar t => exact ⟨_, m4, by simp [validateJobs, hr, hs]⟩
        | map m => exact ⟨_, m4, by simp [validateJobs, hr, hs]⟩
        | seq steps => exact absurd ⟨job, rfl, ⟨ro, hr⟩, ⟨steps, hs⟩⟩ hbad

theorem checkExtension_eq (f : String) (r : Run) :
    checkExtension f r = r.addWarnings (extensionWarnings f) := by
  unfold checkExtension extensionWarnings
  by_cases h : ToLower (Ext f) = ".yml" ∨ ToLower (Ext f) = ".yaml"
  · have h2 : ¬ (ToLower (Ext f) ≠ ".yml" ∧ ToLower (Ext f) ≠ ".yaml") := by
      rintro ⟨h3, h4⟩; exact h.elim h3 h4
    simp only [if_pos h, if_neg h2, addWarnings_nil]
  · have h2 : ToLower (Ext f) ≠ ".yml" ∧ ToLower (Ext f) ≠ ".yaml" :=
      ⟨fun h3 => h (Or.inl h3), fun h4 => h (Or.inr h4)⟩
    simp only [if_neg h, if_pos h2]
    simp [Run.addWarnings, Run.addWarning]

/-! ## The verbose flag is never written -/

theorem ValidateYAMLSyntax_verbose (w : World) (f : String) (r : Run) :
    (ValidateYAMLSyntax w f r).2.v.verbose = r.v.verbose := by
  unfold ValidateYAMLSyntax
  cases h1 : w.readFile f with
  | error e => simp
  | ok data =>
    cases h2 : w.unmarshalAny data with
    | error e => simp [h2]
    | ok c => simp [h2]

theorem validateJobs_verbose (f : String) (jobs : List (String × Value)) :
    ∀ r : Run, (validateJobs f jobs r).2.v.verbose = r.v.verbose := by
  induction jobs with
  | nil => intro r; simp [validateJobs]
  | cons jb rest ih =>
    intro r
    obtain ⟨jobName, body⟩ := jb
    cases body with
    | null => simp [validateJobs]
    | scalar t => simp [validateJobs]
    | seq xs => simp [validateJobs]
    | map job =>
      cases hr : List.lookup "runs-on" job with
      | none => simp [validateJobs, hr]
      | some ro =>
        cases hs : List.lookup "steps" job with
        | none => simp [validateJobs, hr, hs]
        | some st =>
          cases st with
          | null => simp [validateJobs, hr, hs]
          | scalar t => simp [validateJobs, hr, hs]
          | map m => simp [validateJobs, hr, hs]
          | seq steps =>
            by_cases h0 : steps.length = 0
            · simp only [validateJobs, hr, hs, h0, if_true]
              rw [ih]; simp
            · simp only [validateJobs, hr, hs, h0, if_false]
              rw [ih]

theorem checkWorkflow_verbose (f : String) (wf : GoMap) (r : Run) :
    (checkWorkflow f wf r).2.v.verbose = r.v.verbose := by
  unfold checkWorkflow
  rw [← checkName_verbose f wf r]
  generalize checkName f wf r = r1
  cases hon : List.lookup "on" wf with
  | none => simp
  | some onv =>
    cases hjobs : List.lookup "jobs" wf with
    | none => simp
    | some jv =>
      cases jv with
      | null => simp
      | scalar t => simp
      | seq xs => simp
      | map jobs =>
        by_cases h0 : jobs.length = 0
        · simp [h0]
        · simp only [h0, if_false]
          have hc := validateJobs_verbose f jobs r1
          cases hv : validateJobs f jobs r1 with
          | mk b r2 =>
            rw [hv] at hc
            cases b <;> simp_all

theorem ValidateWorkflowStructure_verbose (w : World) (f : String) (r : Run) :
    (ValidateWorkflowStructure w f r).2.v.verbose = r.v.verbose := by
  unfold ValidateWorkflowStructure
  cases h1 : w.readFile f with
  | error e => simp
  | ok data =>
    cases h2 : w.unmarshalMap data with
    | error e => simp [h2]
    | ok c =>
      cases c with
      | none => simp [h2]
      | some wf => simp only [h2]; exact checkWorkflow_verbose f wf r

theorem ValidateFile_verbose (w : World) (f : String) (r : Run) :
    (ValidateFile w f r).2.v.verbose = r.v.verbose := by
  unfold ValidateFile
  rw [← log_verbose ("\nValidating " ++ f ++ "...") r]
  generalize log ("\nValidating " ++ f ++ "...") r = r0
  cases hne : statNotExist w f with
  | true => simp
  | false =>
    simp only [Bool.false_eq_true, if_false]
    rw [← checkExtension_verbose f r0]
    generalize checkExtension f r0 = r1
    have hy := ValidateYAMLSyntax_verbose w f r1
    cases hv : ValidateYAMLSyntax w f r1 with
    | mk b r2 =>
      rw [hv] at hy
      cases b
      · simp_all
      · have hs := ValidateWorkflowStructure_verbose w f r2
        cases hw : ValidateWorkflowStructure w f r2 with
        | mk b3 r3 =>
          rw [hw] at hs
          cases b3 <;> simp_all

/-! ## The directory loop visits every file -/

theorem validateFiles_spec (w : World) (files : List String) :
    ∀ (a : Bool) (r : Run),
      (validateFiles w files a r).1
          = (a && files.all (fun f => (ValidateFile w f (Run.start r.v.verbose)).1))
      ∧ (validateFiles w files a r).2.v.verbose = r.v.verbose
      ∧ (validateFiles w files a r).2.v.errors
          = r.v.errors
            ++ files.flatMap (fun f => (ValidateFile w f (Run.start r.v.verbose)).2.v.errors)
      ∧ (validateFiles w files a r).2.v.warnings
          = r.v.warnings
            ++ files.flatMap (fun f => (ValidateFile w f (Run.start r.v.verbose)).2.v.warnings)
      ∧ (validateFiles w files a r).2.stdout
          = r.stdout
            ++ files.flatMap (fun f => (ValidateFile w f (Run.start r.v.verbose)).2.stdout) := by
  induction files with
  | nil => intro a r; simp [validateFiles]
  | cons file rest ih =>
    intro a r
    have hfr := ValidateFile_frame w file r
    have hvb := ValidateFile_verbose w file (Run.start r.v.verbose)
    simp only [validateFiles]
    generalize hd : ValidateFile w file (Run.start r.v.verbose) = d at hfr hvb
    obtain ⟨b, d2⟩ := d
    have hvb2 : d2.v.verbose = r.v.verbose := by simpa [Run.start, NewValidator] using hvb
    rw [hfr]
    have hext : (r.extend d2).v.verbose = r.v.verbose := by simp [Run.extend, hvb2]
    cases b
    · obtain ⟨i1, i2, i3, i4, i5⟩ := ih false (r.extend d2)
      rw [hext] at i1 i3 i4 i5
      refine ⟨?_, ?_, ?_, ?_, ?_⟩
      · simp [i1, hd]
      · simp [i2, hext]
      · simp only []; rw [i3]; simp [hd, Run.extend, List.flatMap_cons]
      · simp only []; rw [i4]; simp [hd, Run.extend, List.flatMap_cons]
      · simp only []; rw [i5]; simp [hd, Run.extend, List.flatMap_cons]
    · obtain ⟨i1, i2, i3, i4, i5⟩ := ih a (r.extend d2)
      rw [hext] at i1 i3 i4 i5
      refine ⟨?_, ?_, ?_, ?_, ?_⟩
      · simp [i1, hd]
      · simp [i2, hext]
      · simp only []; rw [i3]; simp [hd, Run.extend, List.flatMap_cons]
      · simp only []; rw [i4]; simp [hd, Run.extend, List.flatMap_cons]
      · simp only []; rw [i5]; simp [hd, Run.extend, List.flatMap_cons]

theorem ValidateDirectory_verbose (w : World) (dir : String) (r : Run) :
    (ValidateDirectory w dir r).2.v.verbose = r.v.verbose := by
  unfold ValidateDirectory
  cases hst : w.stat dir with
  | error e => simp
  | ok isDir =>
    cases isDir with
    | false => simp
    | true =>
      cases hc : collectWorkflowFiles (w.walkDir dir) [] with
      | error e => simp
      | ok files =>
        by_cases h0 : files.length = 0
        · simp [h0]
        · simp only [h0, if_false, Bool.not_true, Bool.false_eq_true]
          exact (validateFiles_spec w files true r).2.1

theorem processPath_verbose (w : World) (path : String) (r : Run) :
    (processPath w path r).2.v.verbose = r.v.verbose := by
  unfold processPath
  cases hst : w.stat path with
  | error e => simp
  | ok isDir =>
    cases isDir with
    | true => simpa using ValidateDirectory_verbose w path r
    | false => simpa using ValidateFile_verbose w path r

/-! ## The run loop visits every path -/

theorem runLoop_spec (w : World) (paths : List String) :
    ∀ (a : Bool) (r : Run),
      (runLoop w paths a r).1
          = (a && paths.all (fun p => (processPath w p (Run.start r.v.verbose)).1))
      ∧ (runLoop w paths a r).2.v.verbose = r.v.verbose
      ∧ (runLoop w paths a r).2.v.errors
          = r.v.errors
            ++ paths.flatMap (fun p => (processPath w p (Run.start r.v.verbose)).2.v.errors)
      ∧ (runLoop w paths a r).2.v.warnings
          = r.v.warnings
            ++ paths.flatMap (fun p => (processPath w p (Run.start r.v.verbose)).2.v.warnings)
      ∧ (runLoop w paths a r).2.stdout
          = r.stdout
            ++ paths.flatMap (fun p => (processPath w p (Run.start r.v.verbose)).2.stdout) := by
  induction paths with
  | nil => intro a r; simp [runLoop]
  | cons path rest ih =>
    intro a r
    have hfr := processPath_frame w path r
    have hvb := processPath_verbose w path (Run.start r.v.verbose)
    simp only [runLoop]
    generalize hd : processPath w path (Run.start r.v.verbose) = d at hfr hvb
    obtain ⟨b, d2⟩ := d
    have hvb2 : d2.v.verbose = r.v.verbose := by simpa [Run.start, NewValidator] using hvb
    rw [hfr]
    have hext : (r.extend d2).v.verbose = r.v.verbose := by simp [Run.extend, hvb2]
    cases b
    · obtain ⟨i1, i2, i3, i4, i5⟩ := ih false (r.extend d2)
      rw [hext] at i1 i3 i4 i5
      refine ⟨?_, ?_, ?_, ?_, ?_⟩
      · simp [i1, hd]
      · simp [i2, hext]
      · simp only []; rw [i3]; simp [hd, Run.extend, List.flatMap_cons]
      · simp only []; rw [i4]; simp [hd, Run.extend, List.flatMap_cons]
      · simp only []; rw [i5]; simp [hd, Run.extend, List.flatMap_cons]
    · obtain ⟨i1, i2, i3, i4, i5⟩ := ih a (r.extend d2)
      rw [hext] at i1 i3 i4 i5
      refine ⟨?_, ?_, ?_, ?_, ?_⟩
      · simp [i1, hd]
      · simp [i2, hext]
      · simp only []; rw [i3]; simp [hd, Run.extend, List.flatMap_cons]
      · simp only []; rw [i4]; simp [hd, Run.extend, List.flatMap_cons]
      · simp only []; rw [i5]; simp [hd, Run.extend, List.flatMap_cons]

/-! ## The report does not touch the validator -/

theorem printAll_v (msgs : List String) : ∀ r : Run, (printAll msgs r).v = r.v := by
  unfold printAll
  induction msgs with
  | nil => intro r; rfl
  | cons m ms ih => intro r; simp only [List.foldl_cons]; rw [ih]; rfl

theorem PrintSummary_v (r : Run) : (PrintSummary r).v = r.v := by
  unfold PrintSummary
  simp only [Run.println, Run.print]
  split <;> split <;> simp [printAll_v]

/-! ## The verbose flag only adds output -/

theorem quieter_addError (m : String) {q l : Run} (h : Quieter q l) :
    Quieter (q.addError m) (l.addError m) := by
  obtain ⟨h1, h2, h3, h4⟩ := h
  exact ⟨h1, by simp [h2], h3, h4⟩

theorem quieter_addWarning (m : String) {q l : Run} (h : Quieter q l) :
    Quieter (q.addWarning m) (l.addWarning m) := by
  obtain ⟨h1, h2, h3, h4⟩ := h
  exact ⟨h1, h2, by simp [h3], h4⟩

theorem quieter_log (m : String) {q l : Run} (h : Quieter q l) :
    Quieter (log m q) (log m l) := by
  obtain ⟨h1, h2, h3, h4⟩ := h
  have hq : log m q = q := by unfold log; simp [h1]
  rw [hq]
  refine ⟨h1, by simp [h2], by simp [h3], ?_⟩
  unfold log
  split
  · exact h4.trans (List.sublist_append_left _ _)
  · exact h4

theorem quieter_checkName (f : String) (wf : GoMap) {q l : Run} (h : Quieter q l) :
    Quieter (checkName f wf q) (checkName f wf l) := by
  unfold checkName
  cases List.lookup "name" wf with
  | none => exact quieter_addWarning _ h
  | some x => exact h

theorem quieter_checkExtension (f : String) {q l : Run} (h : Quieter q l) :
    Quieter (checkExtension f q) (checkExtension f l) := by
  unfold checkExtension
  by_cases hc : ToLower (Ext f) ≠ ".yml" ∧ ToLower (Ext f) ≠ ".yaml"
  · simp only [if_pos hc]; exact quieter_addWarning _ h
  · simp only [if_neg hc]; exact h

theorem ValidateYAMLSyntax_quieter (w : World) (f : String) {q l : Run} (h : Quieter q l) :
    (ValidateYAMLSyntax w f q).1 = (ValidateYAMLSyntax w f l).1
    ∧ Quieter (ValidateYAMLSyntax w f q).2 (ValidateYAMLSyntax w f l).2 := by
  unfold ValidateYAMLSyntax
  cases h1 : w.readFile f with
  | error e => exact ⟨by trivial, quieter_addError _ h⟩
  | ok data =>
    cases h2 : w.unmarshalAny data with
    | error e => simp only [h2]; exact ⟨by trivial, quieter_addError _ h⟩
    | ok c => simp only [h2]; exact ⟨by trivial, quieter_log _ h⟩

theorem validateJobs_quieter (f : String) (jobs : List (String × Value)) :
    ∀ {q l : Run}, Quieter q l →
      (validateJobs f jobs q).1 = (validateJobs f jobs l).1
      ∧ Quieter (validateJobs f jobs q).2 (validateJobs f jobs l).2 := by
  induction jobs with
  | nil => intro q l h; exact ⟨by trivial, h⟩
  | cons jb rest ih =>
    intro q l h
    obtain ⟨jobName, body⟩ := jb
    cases body with
    | null => exact ⟨by trivial, quieter_addError _ h⟩
    | scalar t => exact ⟨by trivial, quieter_addError _ h⟩
    | seq xs => exact ⟨by trivial, quieter_addError _ h⟩
    | map job =>
      cases hr : List.lookup "runs-on" job with
      | none => simp only [validateJobs, hr]; exact ⟨by trivial, quieter_addError _ h⟩
      | some ro =>
        cases hs : List.lookup "steps" job with
        | none => simp only [validateJobs, hr, hs]; exact ⟨by trivial, quieter_addError _ h⟩
        | some st =>
          cases st with
          | null => simp only [validateJobs, hr, hs]; exact ⟨by trivial, quieter_addError _ h⟩
          | scalar t => simp only [validateJobs, hr, hs]; exact ⟨by trivial, quieter_addError _ h⟩
          | map m => simp only [validateJobs, hr, hs]; exact ⟨by trivial, quieter_addError _ h⟩
          | seq steps =>
            by_cases h0 : steps.length = 0
            · simp only [validateJobs, hr, hs, h0, if_true]
              exact ih (quieter_addWarning _ h)
            · simp only [validateJobs, hr, hs, h0, if_false]
              exact ih h

theorem checkWorkflow_quieter (f : String) (wf : GoMap) {q l : Run} (h : Quieter q l) :
    (checkWorkflow f wf q).1 = (checkWorkflow f wf l).1
    ∧ Quieter (checkWorkflow f wf q).2 (checkWorkflow f wf l).2 := by
  unfold checkWorkflow
  have h1 := quieter_checkName f wf h
  generalize checkName f wf q = q1 at h1
  generalize checkName f wf l = l1 at h1
  cases hon : List.lookup "on" wf with
  | none => exact ⟨by trivial, quieter_addError _ h1⟩
  | some onv =>
    cases hjobs : List.lookup "jobs" wf with
    | none => exact ⟨by trivial, quieter_addError _ h1⟩
    | some jv =>
      cases jv with
      | null => exact ⟨by trivial, quieter_addError _ h1⟩
      | scalar t => exact ⟨by trivial, quieter_addError _ h1⟩
      | seq xs => exact ⟨by trivial, quieter_addError _ h1⟩
      | map jobs =>
        by_cases h0 : jobs.length = 0
        · simp only [h0, if_true]; exact ⟨by trivial, quieter_addError _ h1⟩
        · simp only [h0, if_false]
          obtain ⟨hb, hq⟩ := validateJobs_quieter f jobs h1
          rcases hv : validateJobs f jobs q1 with ⟨b, q2⟩
          rcases hv2 : validateJobs f jobs l1 with ⟨b2, l2⟩
          rw [hv, hv2] at hb hq
          simp only at hb hq
          subst hb
          cases b
          · exact ⟨by trivial, hq⟩
          · exact ⟨by trivial, quieter_log _ hq⟩

theorem ValidateWorkflowStructure_quieter (w : World) (f : String) {q l : Run}
    (h : Quieter q l) :
    (ValidateWorkflowStructure w f q).1 = (ValidateWorkflowStructure w f l).1
    ∧ Quieter (ValidateWorkflowStructure w f q).2 (ValidateWorkflowStructure w f l).2 := by
  unfold ValidateWorkflowStructure
  cases h1 : w.readFile f with
  | error e => exact ⟨by trivial, quieter_addError _ h⟩
  | ok data =>
    cases h2 : w.unmarshalMap data with
    | error e => simp only [h2]; exact ⟨by trivial, quieter_addError _ h⟩
    | ok c =>
      cases c with
      | none => simp only [h2]; exact ⟨by trivial, quieter_addError _ h⟩
      | some wf => simp only [h2]; exact checkWorkflow_quieter f wf h

theorem ValidateFile_quieter (w : World) (f : String) {q l : Run} (h : Quieter q l) :
    (ValidateFile w f q).1 = (ValidateFile w f l).1
    ∧ Quieter (ValidateFile w f q).2 (ValidateFile w f l).2 := by
  unfold ValidateFile
  have h0 := quieter_log ("\nValidating " ++ f ++ "...") h
  generalize log ("\nValidating " ++ f ++ "...") q = q0 at h0
  generalize log ("\nValidating " ++ f ++ "...") l = l0 at h0
  cases hne : statNotExist w f with
  | true => simp only [if_true]; exact ⟨by trivial, quieter_addError _ h0⟩
  | false =>
    simp only [Bool.false_eq_true, if_false]
    obtain ⟨hb, hq⟩ := ValidateYAMLSyntax_quieter w f (quieter_checkExtension f h0)
    rcases hv : ValidateYAMLSyntax w f (checkExtension f q0) with ⟨b, q2⟩
    rcases hv2 : ValidateYAMLSyntax w f (checkExtension f l0) with ⟨b2, l2⟩
    rw [hv, hv2] at hb hq
    simp only at hb hq
    subst hb
    cases b
    · exact ⟨by trivial, hq⟩
    · obtain ⟨hb3, hq3⟩ := ValidateWorkflowStructure_quieter w f hq
      simp only []
      rcases hw : ValidateWorkflowStructure w f q2 with ⟨b3, q3⟩
      rcases hw2 : ValidateWorkflowStructure w f l2 with ⟨b4, l3⟩
      rw [hw, hw2] at hb3 hq3
      simp only at hb3 hq3
      subst hb3
      cases b3
      · exact ⟨by trivial, hq3⟩
      · exact ⟨by trivial, hq3⟩

theorem validateFiles_quieter (w : World) (files : List String) :
    ∀ (a : Bool) {q l : Run}, Quieter q l →
      (validateFiles w files a q).1 = (validateFiles w files a l).1
      ∧ Quieter (validateFiles w files a q).2 (validateFiles w files a l).2 := by
  induction files with
  | nil => intro a q l h; exact ⟨by trivial, h⟩
  | cons file rest ih =>
    intro a q l h
    simp only [validateFiles]
    obtain ⟨hb, hq⟩ := ValidateFile_quieter w file h
    rcases hv : ValidateFile w file q with ⟨b, q2⟩
    rcases hv2 : ValidateFile w file l with ⟨b2, l2⟩
    rw [hv, hv2] at hb hq
    simp only at hb hq
    subst hb
    cases b
    · exact ih false hq
    · exact ih a hq

theorem ValidateDirectory_quieter (w : World) (dir : String) {q l : Run} (h : Quieter q l) :
    (ValidateDirectory w dir q).1 = (ValidateDirectory w dir l).1
    ∧ Quieter (ValidateDirectory w dir q).2 (ValidateDirectory w dir l).2 := by
  unfold ValidateDirectory
  cases hst : w.stat dir with
  | error e => exact ⟨by trivial, quieter_addError _ h⟩
  | ok isDir =>
    cases isDir with
    | false => exact ⟨by trivial, quieter_addError _ h⟩
    | true =>
      cases hc : collectWorkflowFiles (w.walkDir dir) [] with
      | error e => exact ⟨by trivial, quieter_addError _ h⟩
      | ok files =>
        by_cases h0 : files.length = 0
        · simp only [h0, if_true, Bool.not_true, Bool.false_eq_true, if_false]
          exact ⟨by trivial, quieter_addWarning _ h⟩
        · simp only [h0, if_false, Bool.not_true, Bool.false_eq_true]
          exact validateFiles_quieter w files true h

theorem processPath_quieter (w : World) (path : String) {q l : Run} (h : Quieter q l) :
    (processPath w path q).1 = (processPath w path l).1
    ∧ Quieter (processPath w path q).2 (processPath w path l).2 := by
  unfold processPath
  cases hst : w.stat path with
  | error e => exact ⟨by trivial, quieter_addError _ h⟩
  | ok isDir =>
    cases isDir with
    | true => simp only [if_true]; exact ValidateDirectory_quieter w path h
    | false => simp only [Bool.false_eq_true, if_false]; exact ValidateFile_quieter w path h

theorem runLoop_quieter (w : World) (paths : List String) :
    ∀ (a : Bool) {q l : Run}, Quieter q l →
      (runLoop w paths a q).1 = (runLoop w paths a l).1
      ∧ Quieter (runLoop w paths a q).2 (runLoop w paths a l).2 := by
  induction paths with
  | nil => intro a q l h; exact ⟨by trivial, h⟩
  | cons path rest ih =>
    intro a q l h
    simp only [runLoop]
    obtain ⟨hb, hq⟩ := processPath_quieter w path h
    rcases hv : processPath w path q with ⟨b, q2⟩
    rcases hv2 : processPath w path l with ⟨b2, l2⟩
    rw [hv, hv2] at hb hq
    simp only at hb hq
    subst hb
    cases b
    · exact ih false hq
    · exact ih a hq

theorem quieter_withVerbose (r : Run) (b : Bool) :
    Quieter (r.withVerbose false) (r.withVerbose b) :=
  ⟨rfl, rfl, rfl, List.Sublist.refl _⟩

theorem quieter_println (m : String) {q l : Run} (h : Quieter q l) :
    Quieter (q.println m) (l.println m) := by
  obtain ⟨h1, h2, h3, h4⟩ := h
  exact ⟨h1, h2, h3, List.Sublist.append h4 (List.Sublist.refl _)⟩

theorem quieter_print (m : String) {q l : Run} (h : Quieter q l) :
    Quieter (q.print m) (l.print m) := by
  obtain ⟨h1, h2, h3, h4⟩ := h
  exact ⟨h1, h2, h3, List.Sublist.append h4 (List.Sublist.refl _)⟩

theorem quieter_printAll (msgs : List String) :
    ∀ {q l : Run}, Quieter q l → Quieter (printAll msgs q) (printAll msgs l) := by
  unfold printAll
  induction msgs with
  | nil => intro q l h; exact h
  | cons m ms ih => intro q l h; simp only [List.foldl_cons]; exact ih (quieter_print _ h)

theorem PrintSummary_quieter {q l : Run} (h : Quieter q l) :
    Quieter (PrintSummary q) (PrintSummary l) := by
  unfold PrintSummary
  simp only []
  have h3 := quieter_println banner
    (quieter_println "Validation Summary" (quieter_println ("\n" ++ banner) h))
  generalize Run.println banner
    (Run.println "Validation Summary" (Run.println ("\n" ++ banner) q)) = q3 at h3 ⊢
  generalize Run.println banner
    (Run.println "Validation Summary" (Run.println ("\n" ++ banner) l)) = l3 at h3 ⊢
  have h4 : Quieter
      (if q3.v.warnings.length > 0 then
        printAll q3.v.warnings
          (q3.print ("\n⚠ Warnings (" ++ toString q3.v.warnings.length ++ "):\n"))
      else q3)
      (if l3.v.warnings.length > 0 then
        printAll l3.v.warnings
          (l3.print ("\n⚠ Warnings (" ++ toString l3.v.warnings.length ++ "):\n"))
      else l3) := by
    rw [← h3.2.2.1]
    split
    · exact quieter_printAll _ (quieter_print _ h3)
    · exact h3
  generalize (if q3.v.warnings.length > 0 then
        printAll q3.v.warnings
          (q3.print ("\n⚠ Warnings (" ++ toString q3.v.warnings.length ++ "):\n"))
      else q3) = q4 at h4 ⊢
  generalize (if l3.v.warnings.length > 0 then
        printAll l3.v.warnings
          (l3.print ("\n⚠ Warnings (" ++ toString l3.v.warnings.length ++ "):\n"))
      else l3) = l4 at h4 ⊢
  apply quieter_println
  rw [← h4.2.1]
  split
  · exact quieter_printAll _ (quieter_print _ h4)
  · exact quieter_println _ h4

/-! ## Lemmas for the end-to-end scenarios -/

theorem ValidateWorkflowStructure_wellFormed (w : World) (f data : String) (wf jobs : GoMap)
    (r : Run) (hread : w.readFile f = .ok data) (hparse : w.unmarshalMap data = .ok (some wf))
    (hon : ∃ x, List.lookup "on" wf = some x)
    (hjobs : List.lookup "jobs" wf = some (Value.map jobs))
    (hne : jobs ≠ [])
    (hall : ∀ jb ∈ jobs, JobWellFormed jb.2) :
    ValidateWorkflowStructure w f r
      = (true, log ("✓ " ++ f ++ ": Valid workflow structure")
                (r.addWarnings (nameWarnings f wf ++ noStepsWarnings f jobs))) := by
  obtain ⟨onv, hon⟩ := hon
  have hlen : jobs.length ≠ 0 := fun h => hne (List.length_eq_zero.mp h)
  have hloop := validateJobs_wellFormed_append f jobs [] (checkName f wf r) hall
  rw [List.append_nil] at hloop
  unfold ValidateWorkflowStructure
  simp only [hread, hparse]
  unfold checkWorkflow
  simp only [hon, hjobs, if_neg hlen]
  rw [hloop]
  simp only [validateJobs, checkName_eq, addWarnings_addWarnings]

theorem ValidateWorkflowStructure_emptyJobs (w : World) (f data : String) (wf : GoMap)
    (r : Run) (hread : w.readFile f = .ok data) (hparse : w.unmarshalMap data = .ok (some wf))
    (hon : ∃ x, List.lookup "on" wf = some x)
    (hjobs : List.lookup "jobs" wf = some (Value.map [])) :
    ValidateWorkflowStructure w f r
      = (false, (r.addWarnings (nameWarnings f wf)).addError
                  ("✗ " ++ f ++ ": 'jobs' must contain at least one job")) := by
  obtain ⟨onv, hon⟩ := hon
  unfold ValidateWorkflowStructure
  simp only [hread, hparse]
  unfold checkWorkflow
  simp only [hon, hjobs, List.length_nil, if_true, checkName_eq]

theorem ValidateFile_eq_syntaxThenStructure (w : World) (f : String) (r : Run)
    (hne : statNotExist w f = false) :
    ValidateFile w f r
      = syntaxThenStructure w f (checkExtension f (log ("\nValidating " ++ f ++ "...") r)) := by
  unfold ValidateFile syntaxThenStructure
  simp only [hne, Bool.false_eq_true, if_false]
  rcases hv : ValidateYAMLSyntax w f (checkExtension f (log ("\nValidating " ++ f ++ "...") r))
    with ⟨b, r2⟩
  cases b
  · rfl
  · simp only []
    rcases hw : ValidateWorkflowStructure w f r2 with ⟨b3, r3⟩
    cases b3 <;> rfl

theorem statNotExist_of_ok (w : World) (f : String) (isDir : Bool) (h : w.stat f = .ok isDir) :
    statNotExist w f = false := by
  unfold statNotExist; simp only [h]

theorem main_single_file (w : World) (verbose : Bool) (f : String)
    (hstat : w.stat f = .ok false) :
    main w verbose [f]
      = (if (!(ValidateFile w f (Run.start verbose)).1
              || HasErrors (ValidateFile w f (Run.start verbose)).2.v) = true
          then (1, some (ValidateFile w f (Run.start verbose)).2.v,
                  (PrintSummary (ValidateFile w f (Run.start verbose)).2).stdout)
          else (0, some (ValidateFile w f (Run.start verbose)).2.v,
                  (PrintSummary (ValidateFile w f (Run.start verbose)).2).stdout)) := by
  have hp : processPath w f (Run.start verbose) = ValidateFile w f (Run.start verbose) := by
    unfold processPath; simp only [hstat, Bool.false_eq_true, if_false]
  unfold main
  simp only [List.length_singleton, Nat.succ_ne_zero, if_false, runLoop, hp, PrintSummary_v]
  rcases hv : ValidateFile w f (Run.start verbose) with ⟨b, r2⟩
  cases b <;> rfl

@[simp] theorem log_v (m : String) (r : Run) : (log m r).v = r.v := by
  unfold log; split <;> rfl

/-! ## Directories without workflow files -/

theorem collectWorkflowFiles_none (es : List WalkEntry) :
    ∀ acc : List String,
      (∀ e ∈ es, e.err = none) →
      (∀ e ∈ es, e.isDir = false →
          ¬ (ToLower (Ext e.path) = ".yml" ∨ ToLower (Ext e.path) = ".yaml")) →
      collectWorkflowFiles es acc = .ok acc := by
  induction es with
  | nil => intro acc _ _; rfl
  | cons e es ih =>
    intro acc herr hext
    have he : e.err = none := herr e (List.mem_cons_self _ _)
    have ih2 := ih acc (fun x hx => herr x (List.mem_cons_of_mem _ hx))
      (fun x hx => hext x (List.mem_cons_of_mem _ hx))
    unfold collectWorkflowFiles
    simp only [he]
    cases hd : e.isDir with
    | true => simpa using ih2
    | false =>
      have hno := hext e (List.mem_cons_self _ _) hd
      simp only [Bool.not_false, if_true, if_neg hno]
      exact ih2

/-! ## The syntax check followed by the structure check -/

theorem syntaxThenStructure_extend (w : World) (f : String) (r d : Run) :
    syntaxThenStructure w f (r.extend d)
      = ((syntaxThenStructure w f d).1, r.extend (syntaxThenStructure w f d).2) := by
  unfold syntaxThenStructure
  rw [ValidateYAMLSyntax_extend]
  rcases hv : ValidateYAMLSyntax w f d with ⟨b, r2⟩
  cases b
  · rfl
  · simp only []
    rw [ValidateWorkflowStructure_extend]

theorem syntaxThenStructure_frame (w : World) (f : String) (r : Run) :
    syntaxThenStructure w f r
      = ((syntaxThenStructure w f (Run.start r.v.verbose)).1,
          r.extend (syntaxThenStructure w f (Run.start r.v.verbose)).2) := by
  have h := syntaxThenStructure_extend w f r (Run.start r.v.verbose)
  rwa [extend_start] at h

@[simp] theorem checkExtension_warnings (f : String) (r : Run) :
    (checkExtension f r).v.warnings = r.v.warnings ++ extensionWarnings f := by
  rw [checkExtension_eq]; rfl

/-! ## No warning of the structure check is an extension warning -/

/-- The last character of a string followed by a non-empty string. -/
theorem getLast_append (a b : String) (c : Char) (hb : b.data.getLast? = some c) :
    (a ++ b).data.getLast? = some c := by
  rw [String.data_append, List.getLast?_append, hb]
  rfl

theorem extensionWarning_last (p : String) :
    ("⚠ " ++ p ++ ": File extension should be .yml or .yaml").data.getLast? = some 'l' :=
  getLast_append _ _ 'l' (by decide)

theorem nameWarning_last (p : String) :
    ("⚠ " ++ p ++ ": Missing 'name' field (recommended)").data.getLast? ≠ some 'l' := by
  rw [getLast_append _ _ ')' (by decide)]; decide

theorem noStepsWarning_last (p j : String) :
    ("⚠ " ++ p ++ ": Job '" ++ j ++ "' has no steps").data.getLast? ≠ some 'l' := by
  rw [getLast_append _ _ 's' (by decide)]; decide

theorem noFilesWarning_last (p : String) :
    ("⚠ " ++ p ++ ": No workflow files found").data.getLast? ≠ some 'l' := by
  rw [getLast_append _ _ 'd' (by decide)]; decide

theorem inv_addWarning {r : Run} {m : String}
    (h : ∀ x ∈ r.v.warnings, x.data.getLast? ≠ some 'l') (hm : m.data.getLast? ≠ some 'l') :
    ∀ x ∈ (r.addWarning m).v.warnings, x.data.getLast? ≠ some 'l' := by
  intro x hx
  simp only [addWarning_warnings, List.mem_append, List.mem_singleton] at hx
  rcases hx with hx | hx
  · exact h x hx
  · subst hx; exact hm

theorem validateJobs_inv (f : String) (jobs : List (String × Value)) :
    ∀ r : Run, (∀ x ∈ r.v.warnings, x.data.getLast? ≠ some 'l') →
      ∀ x ∈ (validateJobs f jobs r).2.v.warnings, x.data.getLast? ≠ some 'l' := by
  induction jobs with
  | nil => intro r h; simpa [validateJobs] using h
  | cons jb rest ih =>
    intro r h
    obtain ⟨jobName, body⟩ := jb
    cases body with
    | null => simpa [validateJobs] using h
    | scalar t => simpa [validateJobs] using h
    | seq xs => simpa [validateJobs] using h
    | map job =>
      cases hr : List.lookup "runs-on" job with
      | none => simpa [validateJobs, hr] using h
      | some ro =>
        cases hs : List.lookup "steps" job with
        | none => simpa [validateJobs, hr, hs] using h
        | some st =>
          cases st with
          | null => simpa [validateJobs, hr, hs] using h
          | scalar t => simpa [validateJobs, hr, hs] using h
          | map m => simpa [validateJobs, hr, hs] using h
          | seq steps =>
            by_cases h0 : steps.length = 0
            · simp only [validateJobs, hr, hs, h0, if_true]
              exact ih _ (inv_addWarning h (noStepsWarning_last f jobName))
            · simp only [validateJobs, hr, hs, h0, if_false]
              exact ih _ h

theorem checkName_inv (f : String) (wf : GoMap) (r : Run)
    (h : ∀ x ∈ r.v.warnings, x.data.getLast? ≠ some 'l') :
    ∀ x ∈ (checkName f wf r).v.warnings, x.data.getLast? ≠ some 'l' := by
  unfold checkName
  cases List.lookup "name" wf with
  | none => exact inv_addWarning h (nameWarning_last f)
  | some v => exact h

theorem checkWorkflow_inv (f : String) (wf : GoMap) (r : Run)
    (h : ∀ x ∈ r.v.warnings, x.data.getLast? ≠ some 'l') :
    ∀ x ∈ (checkWorkflow f wf r).2.v.warnings, x.data.getLast? ≠ some 'l' := by
  unfold checkWorkflow
  have h1 := checkName_inv f wf r h
  generalize checkName f wf r = r1 at h1
  cases hon : List.lookup "on" wf with
  | none => simpa using h1
  | some onv =>
    cases hjobs : List.lookup "jobs" wf with
    | none => simpa using h1
    | some jv =>
      cases jv with
      | null => simpa using h1
      | scalar t => simpa using h1
      | seq xs => simpa using h1
      | map jobs =>
        by_cases h0 : jobs.length = 0
        · simpa [h0] using h1
        · simp only [h0, if_false]
          have hj := validateJobs_inv f jobs r1 h1
          rcases hv : validateJobs f jobs r1 with ⟨b, r2⟩
          rw [hv] at hj
          cases b
          · exact hj
          · simpa using hj

theorem ValidateWorkflowStructure_inv (w : World) (f : String) (r : Run)
    (h : ∀ x ∈ r.v.warnings, x.data.getLast? ≠ some 'l') :
    ∀ x ∈ (ValidateWorkflowStructure w f r).2.v.warnings, x.data.getLast? ≠ some 'l' := by
  unfold ValidateWorkflowStructure
  cases h1 : w.readFile f with
  | error e => simpa using h
  | ok data =>
    cases h2 : w.unmarshalMap data with
    | error e => simpa [h2] using h
    | ok c =>
      cases c with
      | none => simpa [h2] using h
      | some wf => simp only [h2]; exact checkWorkflow_inv f wf r h

theorem ValidateYAMLSyntax_warnings (w : World) (f : String) (r : Run) :
    (ValidateYAMLSyntax w f r).2.v.warnings = r.v.warnings := by
  unfold ValidateYAMLSyntax
  cases h1 : w.readFile f with
  | error e => simp
  | ok data =>
    cases h2 : w.unmarshalAny data with
    | error e => simp [h2]
    | ok c => simp [h2]

theorem syntaxThenStructure_inv (w : World) (f : String) (r : Run)
    (h : ∀ x ∈ r.v.warnings, x.data.getLast? ≠ some 'l') :
    ∀ x ∈ (syntaxThenStructure w f r).2.v.warnings, x.data.getLast? ≠ some 'l' := by
  unfold syntaxThenStructure
  have hy := ValidateYAMLSyntax_warnings w f r
  rcases hv : ValidateYAMLSyntax w f r with ⟨b, r2⟩
  rw [hv] at hy
  simp only at hy
  cases b
  · simp only [hy]; exact h
  · simp only []
    exact ValidateWorkflowStructure_inv w f r2 (by rw [hy]; exact h)

/-! ## The text of the report -/

theorem printAll_stdout (msgs : List String) :
    ∀ r : Run, (printAll msgs r).stdout = r.stdout ++ msgs.map (fun m => "  " ++ m ++ "\n") := by
  unfold printAll
  induction msgs with
  | nil => intro r; simp
  | cons m ms ih => intro r; simp only [List.foldl_cons]; rw [ih]; simp [Run.print]

theorem PrintSummary_stdout (r : Run) :
    (PrintSummary r).stdout
      = r.stdout
        ++ (["\n" ++ banner ++ "\n", "Validation Summary\n", banner ++ "\n"]
          ++ (if r.v.warnings = [] then []
              else ("\n⚠ Warnings (" ++ toString r.v.warnings.length ++ "):\n")
                      :: r.v.warnings.map (fun m => "  " ++ m ++ "\n"))
          ++ (if r.v.errors = [] then ["\n✓ All validations passed!\n"]
              else ("\n✗ Errors (" ++ toString r.v.errors.length ++ "):\n")
                      :: r.v.errors.map (fun m => "  " ++ m ++ "\n"))
          ++ [banner ++ "\n"]) := by
  obtain ⟨⟨vb, es, ws⟩, out⟩ := r
  unfold PrintSummary
  cases ws with
  | nil =>
    cases es with
    | nil => simp [Run.println, Run.print]
    | cons e es => simp [Run.println, Run.print, printAll_stdout, printAll_v]
  | cons x ws =>
    cases es with
    | nil => simp [Run.println, Run.print, printAll_stdout, printAll_v]
    | cons e es => simp [Run.println, Run.print, printAll_stdout, printAll_v]

/-- The first characters of a string followed by another string. -/
theorem take_data_append (a b : String) (n : Nat) (h : n ≤ a.data.length) :
    (a ++ b).data.take n = a.data.take n := by
  rw [String.data_append, List.take_append_of_le_length h]

theorem success_ne_item (m : String) :
    "\n✓ All validations passed!\n" ≠ "  " ++ m ++ "\n" := by
  intro h
  have h1 := congrArg (fun s : String => s.data.take 1) h
  simp only at h1
  rw [take_data_append _ _ 1 (by rw [String.data_append]; simp),
      take_data_append _ _ 1 (by decide)] at h1
  revert h1
  decide

theorem success_ne_warnings_header (n : String) :
    "\n✓ All validations passed!\n" ≠ "\n⚠ Warnings (" ++ n ++ "):\n" := by
  intro h
  have h1 := congrArg (fun s : String => s.data.take 2) h
  simp only at h1
  rw [take_data_append _ _ 2 (by rw [String.data_append]; simp),
      take_data_append _ _ 2 (by decide)] at h1
  revert h1
  decide

theorem success_ne_errors_header (n : String) :
    "\n✓ All validations passed!\n" ≠ "\n✗ Errors (" ++ n ++ "):\n" := by
  intro h
  have h1 := congrArg (fun s : String => s.data.take 2) h
  simp only at h1
  rw [take_data_append _ _ 2 (by rw [String.data_append]; simp),
      take_data_append _ _ 2 (by decide)] at h1
  revert h1
  decide

/-! ## Loops over a list followed by another list -/

theorem validateFiles_append (w : World) (ps qs : List String) :
    ∀ (a : Bool) (r : Run),
      validateFiles w (ps ++ qs) a r
        = validateFiles w qs (validateFiles w ps a r).1 (validateFiles w ps a r).2 := by
  induction ps with
  | nil => intro a r; rfl
  | cons p ps ih =>
    intro a r
    simp only [List.cons_append, validateFiles]
    rcases hv : ValidateFile w p r with ⟨b, r1⟩
    cases b <;> simp only [] <;> exact ih _ _

theorem runLoop_append (w : World) (ps qs : List String) :
    ∀ (a : Bool) (r : Run),
      runLoop w (ps ++ qs) a r = runLoop w qs (runLoop w ps a r).1 (runLoop w ps a r).2 := by
  induction ps with
  | nil => intro a r; rfl
  | cons p ps ih =>
    intro a r
    simp only [List.cons_append, runLoop]
    rcases hv : processPath w p r with ⟨b, r1⟩
    cases b <;> simp only [] <;> exact ih _ _

theorem initial_append (a b : List String) : a <+: a ++ b :=
  List.prefix_append a b

theorem extend_errors_initial (r d : Run) : r.v.errors <+: (r.extend d).v.errors :=
  initial_append _ _

theorem extend_warnings_initial (r d : Run) : r.v.warnings <+: (r.extend d).v.warnings :=
  initial_append _ _

/-! ## One error for each failed file -/

theorem one_error_of_frame {res resS : Bool × Run} {r : Run}
    (hfr : res = (resS.1, r.extend resS.2))
    (hcount : resS.2.v.errors.length = if resS.1 = true then 0 else 1) :
    (res.1 = true → res.2.v.errors = r.v.errors)
    ∧ (res.1 = false → ∃ e, res.2.v.errors = r.v.errors ++ [e]) := by
  subst hfr
  constructor
  · intro hb
    simp only at hb
    rw [if_pos hb] at hcount
    have : resS.2.v.errors = [] := List.length_eq_zero.mp hcount
    simp [Run.extend, this]
  · intro hb
    simp only at hb
    rw [if_neg (by simp [hb])] at hcount
    obtain ⟨e, he⟩ := List.length_eq_one.mp hcount
    exact ⟨e, by simp [Run.extend, he]⟩

theorem start_count_ValidateFile (w : World) (f : String) (verbose : Bool) :
    (ValidateFile w f (Run.start verbose)).2.v.errors.length
      = if (ValidateFile w f (Run.start verbose)).1 = true then 0 else 1 := by
  have h := ValidateFile_count w f (Run.start verbose)
  simpa [Run.start, NewValidator] using h

theorem flatMap_errors_length (w : World) (verbose : Bool) (files : List String) :
    (files.flatMap (fun f => (ValidateFile w f (Run.start verbose)).2.v.errors)).length
      = files.countP (fun f => !(ValidateFile w f (Run.start verbose)).1) := by
  induction files with
  | nil => rfl
  | cons f fs ih =>
    have h := start_count_ValidateFile w f verbose
    rw [List.flatMap_cons, List.length_append, ih, List.countP_cons, h]
    cases (ValidateFile w f (Run.start verbose)).1
    · simp; omega
    · simp

/-! ## The order of the jobs does not decide the verdict -/

theorem WorkflowWellFormed_perm (wf1 wf2 jobs1 jobs2 : GoMap)
    (hon : List.lookup "on" wf1 = List.lookup "on" wf2)
    (hj1 : List.lookup "jobs" wf1 = some (Value.map jobs1))
    (hj2 : List.lookup "jobs" wf2 = some (Value.map jobs2))
    (hperm : jobs1.Perm jobs2) :
    WorkflowWellFormed wf1 → WorkflowWellFormed wf2 := by
  rintro ⟨⟨x, hx⟩, jobs, hjobs, hne, hall⟩
  rw [hj1] at hjobs
  cases hjobs
  refine ⟨⟨x, by rw [← hon]; exact hx⟩, jobs2, hj2, ?_, ?_⟩
  · intro h
    rw [h] at hperm
    exact hne (List.Perm.eq_nil hperm)
  · intro jb hjb
    exact hall jb (hperm.mem_iff.mpr hjb)

theorem ValidateWorkflowStructure_of_parsed (w : World) (f data : String) (wf : GoMap) (r : Run)
    (hread : w.readFile f = .ok data) (hparse : w.unmarshalMap data = .ok (some wf)) :
    ValidateWorkflowStructure w f r = checkWorkflow f wf r := by
  unfold ValidateWorkflowStructure; simp only [hread, hparse]

/-! ## Directory validation and the extension warning -/

theorem collectWorkflowFiles_ext (es : List WalkEntry) :
    ∀ (acc files : List String),
      collectWorkflowFiles es acc = .ok files →
      (∀ f ∈ acc, ToLower (Ext f) = ".yml" ∨ ToLower (Ext f) = ".yaml") →
      ∀ f ∈ files, ToLower (Ext f) = ".yml" ∨ ToLower (Ext f) = ".yaml" := by
  induction es with
  | nil =>
    intro acc files h hacc
    simp only [collectWorkflowFiles] at h
    cases h
    exact hacc
  | cons e es ih =>
    intro acc files h hacc
    unfold collectWorkflowFiles at h
    cases he : e.err with
    | some err => simp only [he] at h; cases h
    | none =>
      simp only [he] at h
      cases hd : e.isDir with
      | true =>
        simp only [hd, Bool.not_true, Bool.false_eq_true, if_false] at h
        exact ih acc files h hacc
      | false =>
        simp only [hd, Bool.not_false, if_true] at h
        by_cases hx : ToLower (Ext e.path) = ".yml" ∨ ToLower (Ext e.path) = ".yaml"
        · simp only [if_pos hx] at h
          refine ih (acc ++ [e.path]) files h ?_
          intro f hf
          rcases List.mem_append.mp hf with h1 | h1
          · exact hacc f h1
          · simp only [List.mem_singleton] at h1
            subst h1; exact hx
        · simp only [if_neg hx] at h
          exact ih acc files h hacc

theorem checkExtension_of_workflow (f : String) (r : Run)
    (hx : ToLower (Ext f) = ".yml" ∨ ToLower (Ext f) = ".yaml") :
    checkExtension f r = r := by
  rw [checkExtension_eq]
  simp only [extensionWarnings, if_pos hx, addWarnings_nil]

theorem ValidateFile_inv (w : World) (f : String) (r : Run)
    (hx : ToLower (Ext f) = ".yml" ∨ ToLower (Ext f) = ".yaml")
    (h : ∀ x ∈ r.v.warnings, x.data.getLast? ≠ some 'l') :
    ∀ x ∈ (ValidateFile w f r).2.v.warnings, x.data.getLast? ≠ some 'l' := by
  cases hne : statNotExist w f with
  | true =>
    unfold ValidateFile
    simp only [hne, if_true]
    simpa using h
  | false =>
    rw [ValidateFile_eq_syntaxThenStructure w f r hne, checkExtension_of_workflow f _ hx]
    exact syntaxThenStructure_inv w f _ (by simpa using h)

theorem validateFiles_inv (w : World) (files : List String) :
    ∀ (a : Bool) (r : Run),
      (∀ f ∈ files, ToLower (Ext f) = ".yml" ∨ ToLower (Ext f) = ".yaml") →
      (∀ x ∈ r.v.warnings, x.data.getLast? ≠ some 'l') →
      ∀ x ∈ (validateFiles w files a r).2.v.warnings, x.data.getLast? ≠ some 'l' := by
  induction files with
  | nil => intro a r _ h; exact h
  | cons file rest ih =>
    intro a r hf h
    have h1 := ValidateFile_inv w file r (hf file (List.mem_cons_self _ _)) h
    have hrest : ∀ f ∈ rest, ToLower (Ext f) = ".yml" ∨ ToLower (Ext f) = ".yaml" :=
      fun x hx => hf x (List.mem_cons_of_mem _ hx)
    simp only [validateFiles]
    rcases hv : ValidateFile w file r with ⟨b, r1⟩
    rw [hv] at h1
    cases b
    · exact ih false r1 hrest h1
    · exact ih a r1 hrest h1

theorem ValidateDirectory_inv (w : World) (dir : String) (r : Run)
    (h : ∀ x ∈ r.v.warnings, x.data.getLast? ≠ some 'l') :
    ∀ x ∈ (ValidateDirectory w dir r).2.v.warnings, x.data.getLast? ≠ some 'l' := by
  unfold ValidateDirectory
  cases hst : w.stat dir with
  | error e => simpa using h
  | ok isDir =>
    cases isDir with
    | false => simpa using h
    | true =>
      cases hc : collectWorkflowFiles (w.walkDir dir) [] with
      | error e => simpa using h
      | ok files =>
        by_cases h0 : files.length = 0
        · simp only [h0, if_true, Bool.not_true, Bool.false_eq_true, if_false]
          exact inv_addWarning h (noFilesWarning_last dir)
        · simp only [h0, if_false, Bool.not_true, Bool.false_eq_true]
          exact validateFiles_inv w files true r
            (collectWorkflowFiles_ext (w.walkDir dir) [] files hc (by intro f hf; cases hf)) h

/-! ## The verdict of the structure check, whatever the state -/

theorem ValidateWorkflowStructure_true_iff (w : World) (f : String) (r : Run) :
    (ValidateWorkflowStructure w f r).1 = true
      ↔ ∃ (data : String) (workflow : GoMap),
          w.readFile f = .ok data ∧ w.unmarshalMap data = .ok (some workflow)
          ∧ WorkflowWellFormed workflow := by
  unfold ValidateWorkflowStructure
  cases h1 : w.readFile f with
  | error e => simp
  | ok data =>
    cases h2 : w.unmarshalMap data with
    | error e => simp [h2]
    | ok c =>
      cases c with
      | none => simp [h2]
      | some wf => simp [h2, checkWorkflow_true_iff]

/-! ## Documents that differ in the order of their jobs -/

theorem WorkflowWellFormed_congr (wa wb : GoMap)
    (hon : List.lookup "on" wa = List.lookup "on" wb)
    (hjobs : List.lookup "jobs" wa = List.lookup "jobs" wb
      ∨ ∃ ja jb : GoMap, List.lookup "jobs" wa = some (Value.map ja)
          ∧ List.lookup "jobs" wb = some (Value.map jb) ∧ ja.Perm jb) :
    WorkflowWellFormed wa ↔ WorkflowWellFormed wb := by
  rcases hjobs with h | ⟨ja, jb, h1, h2, hp⟩
  · unfold WorkflowWellFormed
    rw [hon, h]
  · exact ⟨WorkflowWellFormed_perm wa wb ja jb hon h1 h2 hp,
           WorkflowWellFormed_perm wb wa jb ja hon.symm h2 h1 hp.symm⟩

theorem checkWorkflow_result_congr (f g : String) (wa wb : GoMap) (r r2 : Run)
    (hon : List.lookup "on" wa = List.lookup "on" wb)
    (hjobs : List.lookup "jobs" wa = List.lookup "jobs" wb
      ∨ ∃ ja jb : GoMap, List.lookup "jobs" wa = some (Value.map ja)
          ∧ List.lookup "jobs" wb = some (Value.map jb) ∧ ja.Perm jb) :
    (checkWorkflow f wa r).1 = (checkWorkflow g wb r2).1 := by
  rw [Bool.eq_iff_iff, checkWorkflow_true_iff, checkWorkflow_true_iff]
  exact WorkflowWellFormed_congr wa wb hon hjobs

/-! ## The verdicts of two runs on the same input -/

theorem ValidateYAMLSyntax_result_congr (w1 w2 : World) (hin : SameInput w1 w2)
    (f : String) (r r2 : Run) :
    (ValidateYAMLSyntax w1 f r).1 = (ValidateYAMLSyntax w2 f r2).1 := by
  obtain ⟨_, hrf, _, hany, _⟩ := hin
  unfold ValidateYAMLSyntax
  rw [hrf, hany]
  cases h1 : w2.readFile f with
  | error e => rfl
  | ok data =>
    cases h2 : w2.unmarshalAny data with
    | error e => simp [h2]
    | ok c => simp [h2]

theorem ValidateWorkflowStructure_result_congr (w1 w2 : World) (hin : SameInput w1 w2)
    (f : String) (r r2 : Run) :
    (ValidateWorkflowStructure w1 f r).1 = (ValidateWorkflowStructure w2 f r2).1 := by
  obtain ⟨_, hrf, _, _, hmap⟩ := hin
  rw [Bool.eq_iff_iff, ValidateWorkflowStructure_true_iff, ValidateWorkflowStructure_true_iff]
  rw [hrf]
  constructor
  · rintro ⟨data, wf, h1, h2, h3⟩
    rcases hmap data with h | ⟨wa, wb, ja, jb, ha, hb, hsame, hja, hjb, hp⟩
    · exact ⟨data, wf, h1, by rw [← h]; exact h2, h3⟩
    · rw [ha] at h2
      cases h2
      exact ⟨data, wb, h1, hb,
        (WorkflowWellFormed_congr wf wb (hsame "on" (by decide))
          (Or.inr ⟨ja, jb, hja, hjb, hp⟩)).mp h3⟩
  · rintro ⟨data, wf, h1, h2, h3⟩
    rcases hmap data with h | ⟨wa, wb, ja, jb, ha, hb, hsame, hja, hjb, hp⟩
    · exact ⟨data, wf, h1, by rw [h]; exact h2, h3⟩
    · rw [hb] at h2
      cases h2
      exact ⟨data, wa, h1, ha,
        (WorkflowWellFormed_congr wa wf (hsame "on" (by decide))
          (Or.inr ⟨ja, jb, hja, hjb, hp⟩)).mpr h3⟩

theorem statNotExist_congr (w1 w2 : World) (hin : SameInput w1 w2) (f : String) :
    statNotExist w1 f = statNotExist w2 f := by
  unfold statNotExist
  rw [hin.1]

theorem ValidateFile_result_congr (w1 w2 : World) (hin : SameInput w1 w2)
    (f : String) (r r2 : Run) :
    (ValidateFile w1 f r).1 = (ValidateFile w2 f r2).1 := by
  have hs := statNotExist_congr w1 w2 hin f
  cases hne : statNotExist w2 f with
  | true =>
    rw [hne] at hs
    unfold ValidateFile
    simp only [hs, hne, if_true]
  | false =>
    rw [hne] at hs
    rw [ValidateFile_eq_syntaxThenStructure w1 f r hs,
        ValidateFile_eq_syntaxThenStructure w2 f r2 hne]
    unfold syntaxThenStructure
    have hy := ValidateYAMLSyntax_result_congr w1 w2 hin f
      (checkExtension f (log ("\nValidating " ++ f ++ "...") r))
      (checkExtension f (log ("\nValidating " ++ f ++ "...") r2))
    rcases hv : ValidateYAMLSyntax w1 f
      (checkExtension f (log ("\nValidating " ++ f ++ "...") r)) with ⟨b, q⟩
    rcases hv2 : ValidateYAMLSyntax w2 f
      (checkExtension f (log ("\nValidating " ++ f ++ "...") r2)) with ⟨b2, q2⟩
    rw [hv, hv2] at hy
    simp only at hy
    subst hy
    cases b
    · rfl
    · exact ValidateWorkflowStructure_result_congr w1 w2 hin f q q2

theorem validateFiles_result_congr (w1 w2 : World) (hin : SameInput w1 w2)
    (files : List String) :
    ∀ (a : Bool) (r r2 : Run),
      (validateFiles w1 files a r).1 = (validateFiles w2 files a r2).1 := by
  induction files with
  | nil => intro a r r2; rfl
  | cons file rest ih =>
    intro a r r2
    have hf := ValidateFile_result_congr w1 w2 hin file r r2
    simp only [validateFiles]
    rcases hv : ValidateFile w1 file r with ⟨b, q⟩
    rcases hv2 : ValidateFile w2 file r2 with ⟨b2, q2⟩
    rw [hv, hv2] at hf
    simp only at hf
    subst hf
    cases b
    · exact ih false q q2
    · exact ih a q q2

theorem ValidateDirectory_result_congr (w1 w2 : World) (hin : SameInput w1 w2)
    (dir : String) (r r2 : Run) :
    (ValidateDirectory w1 dir r).1 = (ValidateDirectory w2 dir r2).1 := by
  unfold ValidateDirectory
  rw [hin.1, hin.2.2.1]
  cases hst : w2.stat dir with
  | error e => rfl
  | ok isDir =>
    cases isDir with
    | false => rfl
    | true =>
      cases hc : collectWorkflowFiles (w2.walkDir dir) [] with
      | error e => rfl
      | ok files =>
        by_cases h0 : files.length = 0
        · simp [h0]
        · simp only [h0, if_false, Bool.not_true, Bool.false_eq_true]
          exact validateFiles_result_congr w1 w2 hin files true r r2

theorem processPath_result_congr (w1 w2 : World) (hin : SameInput w1 w2)
    (path : String) (r r2 : Run) :
    (processPath w1 path r).1 = (processPath w2 path r2).1 := by
  unfold processPath
  rw [hin.1]
  cases hst : w2.stat path with
  | error e => rfl
  | ok isDir =>
    cases isDir with
    | true => simpa using ValidateDirectory_result_congr w1 w2 hin path r r2
    | false => simpa using ValidateFile_result_congr w1 w2 hin path r r2

theorem runLoop_result_congr (w1 w2 : World) (hin : SameInput w1 w2)
    (paths : List String) :
    ∀ (a : Bool) (r r2 : Run), (runLoop w1 paths a r).1 = (runLoop w2 paths a r2).1 := by
  induction paths with
  | nil => intro a r r2; rfl
  | cons path rest ih =>
    intro a r r2
    have hf := processPath_result_congr w1 w2 hin path r r2
    simp only [runLoop]
    rcases hv : processPath w1 path r with ⟨b, q⟩
    rcases hv2 : processPath w2 path r2 with ⟨b2, q2⟩
    rw [hv, hv2] at hf
    simp only at hf
    subst hf
    cases b
    · exact ih false q q2
    · exact ih a q q2

theorem main_exit (w : World) (verbose : Bool) (args : List String) :
    (main w verbose args).1
      = if args.length = 0 then 1
        else if (runLoop w args true (Run.start verbose)).1 = true then 0 else 1 := by
  unfold main
  by_cases hlen : args.length = 0
  · simp only [if_pos hlen]
  · simp only [if_neg hlen, PrintSummary_v]
    have h := (runLoop_errors w args true (Run.start verbose)).2
    rcases hv : runLoop w args true (Run.start verbose) with ⟨b, q⟩
    rw [hv] at h
    simp only [Run.start, NewValidator, List.length_nil, true_and] at h
    cases b
    · simp
    · have hq : q.v.errors.length = 0 := h.mp rfl
      simp [HasErrors, hq]

theorem sameInput_refl (w : World) : SameInput w w :=
  ⟨rfl, rfl, rfl, rfl, fun _ => Or.inl rfl⟩

/-! ## One run with and without the verbose flag -/

theorem verbose_same_order (w : World) :
    (∀ (f : String) (r : Run), SameOutcome (ValidateYAMLSyntax w f (r.withVerbose false))
              (ValidateYAMLSyntax w f (r.withVerbose true)))
    ∧ (∀ (f : String) (r : Run), SameOutcome (ValidateWorkflowStructure w f (r.withVerbose false))
              (ValidateWorkflowStructure w f (r.withVerbose true)))
    ∧ (∀ (f : String) (r : Run), SameOutcome (ValidateFile w f (r.withVerbose false))
              (ValidateFile w f (r.withVerbose true)))
    ∧ (∀ (d : String) (r : Run), SameOutcome (ValidateDirectory w d (r.withVerbose false))
              (ValidateDirectory w d (r.withVerbose true)))
    ∧ (∀ args : List String,
        (main w false args).1 = (main w true args).1
        ∧ (main w false args).2.1.map (fun v => (v.errors, v.warnings))
            = (main w true args).2.1.map (fun v => (v.errors, v.warnings))
        ∧ (main w false args).2.2.Sublist (main w true args).2.2) := by
  refine ⟨?_, ?_, ?_, ?_, ?_⟩
  · intro f r
    obtain ⟨hb, _, h2, h3, h4⟩ := ValidateYAMLSyntax_quieter w f (quieter_withVerbose r true)
    exact ⟨hb, h2, h3, h4⟩
  · intro f r
    obtain ⟨hb, _, h2, h3, h4⟩ :=
      ValidateWorkflowStructure_quieter w f (quieter_withVerbose r true)
    exact ⟨hb, h2, h3, h4⟩
  · intro f r
    obtain ⟨hb, _, h2, h3, h4⟩ := ValidateFile_quieter w f (quieter_withVerbose r true)
    exact ⟨hb, h2, h3, h4⟩
  · intro d r
    obtain ⟨hb, _, h2, h3, h4⟩ := ValidateDirectory_quieter w d (quieter_withVerbose r true)
    exact ⟨hb, h2, h3, h4⟩
  · intro args
    unfold main
    by_cases hlen : args.length = 0
    · simp only [if_pos hlen]
      exact ⟨by trivial, by trivial, List.Sublist.refl _⟩
    · simp only [if_neg hlen]
      have hstart : Quieter (Run.start false) (Run.start true) :=
        ⟨rfl, rfl, rfl, List.Sublist.refl _⟩
      obtain ⟨hb, hq⟩ := runLoop_quieter w args true hstart
      have hp := PrintSummary_quieter hq
      rcases hv : runLoop w args true (Run.start false) with ⟨b, q2⟩
      rcases hv2 : runLoop w args true (Run.start true) with ⟨b2, l2⟩
      rw [hv, hv2] at hb hq hp
      simp only at hb hq hp
      subst hb
      obtain ⟨_, p2, p3, p4⟩ := hp
      have he : HasErrors (PrintSummary q2).v = HasErrors (PrintSummary l2).v := by
        unfold HasErrors; rw [p2]
      simp only [he]
      split
      · exact ⟨by trivial, by simp [p2, p3], p4⟩
      · exact ⟨by trivial, by simp [p2, p3], p4⟩

theorem sameInput_orderWorld : SameInput (orderWorld false false) (orderWorld false true) := by
  refine ⟨rfl, rfl, rfl, rfl, ?_⟩
  intro d
  by_cases h1 : d = "both.yml"
  · subst h1
    exact Or.inr ⟨_, _, _, _, rfl, rfl, fun k hk => by
      have hk2 : (k == "jobs") = false := by simpa using hk
      simp [List.lookup, hk2], rfl, rfl, List.Perm.swap _ _ _⟩
  · by_cases h2 : d = "idle.yml"
    · subst h2
      exact Or.inr ⟨_, _, _, _, rfl, rfl, fun k hk => by
        have hk2 : (k == "jobs") = false := by simpa using hk
        simp [List.lookup, hk2], rfl, rfl, List.Perm.swap _ _ _⟩
    · left
      simp [orderWorld, h1, h2]

/-! ## Claims -/

/-- C1: starting from a fresh validator, after the run loop has processed all the
paths, `allValid` is true if and only if the accumulated error list is empty;
and each of `ValidateYAMLSyntax`, `ValidateWorkflowStructure`, `ValidateFile`,
`ValidateDirectory` and one iteration of the loop of `main` (which contains the
missing-path branch) returns true if and only if it leaves the error list as it
found it. -/
theorem C1_valid_iff_no_errors (w : World) (verbose : Bool) (args : List String) :
    ((runLoop w args true (Run.start verbose)).1 = true
        ↔ (runLoop w args true (Run.start verbose)).2.v.errors = [])
    ∧ (∀ f r, (ValidateYAMLSyntax w f r).1 = true
        ↔ (ValidateYAMLSyntax w f r).2.v.errors = r.v.errors)
    ∧ (∀ f r, (ValidateWorkflowStructure w f r).1 = true
        ↔ (ValidateWorkflowStructure w f r).2.v.errors = r.v.errors)
    ∧ (∀ f r, (ValidateFile w f r).1 = true
        ↔ (ValidateFile w f r).2.v.errors = r.v.errors)
    ∧ (∀ d r, (ValidateDirectory w d r).1 = true
        ↔ (ValidateDirectory w d r).2.v.errors = r.v.errors)
    ∧ (∀ p r, (processPath w p r).1 = true
        ↔ (processPath w p r).2.v.errors = r.v.errors) := by
  refine ⟨?_, ?_, ?_, ?_, ?_, ?_⟩
  · have h := (runLoop_errors w args true (Run.start verbose)).2
    rw [h]
    simp [Run.start, NewValidator]
  · intro f r
    rw [errors_unchanged_iff (congrArg Prod.snd (ValidateYAMLSyntax_frame w f r))]
    have h := ValidateYAMLSyntax_count w f r
    cases hb : (ValidateYAMLSyntax w f r).1 <;> rw [hb] at h <;> simp at h ⊢ <;> omega
  · intro f r
    rw [errors_unchanged_iff (congrArg Prod.snd (ValidateWorkflowStructure_frame w f r))]
    have h := ValidateWorkflowStructure_count w f r
    cases hb : (ValidateWorkflowStructure w f r).1 <;> rw [hb] at h <;> simp at h ⊢ <;> omega
  · intro f r
    rw [errors_unchanged_iff (congrArg Prod.snd (ValidateFile_frame w f r))]
    have h := ValidateFile_count w f r
    cases hb : (ValidateFile w f r).1 <;> rw [hb] at h <;> simp at h ⊢ <;> omega
  · intro d r
    rw [errors_unchanged_iff (congrArg Prod.snd (ValidateDirectory_frame w d r))]
    exact (ValidateDirectory_errors w d r).2
  · intro p r
    rw [errors_unchanged_iff (congrArg Prod.snd (processPath_frame w p r))]
    exact (processPath_errors w p r).2

/-- C2: for every readable file, `ValidateWorkflowStructure` returns true if and
only if the content decodes to a mapping (a decode that fails, as for a
top-level sequence or scalar, or that leaves the map nil, as for an empty
document, gives false) and that mapping contains `on` and `jobs`, the value of
`jobs` is a non-empty mapping, and every job body in it is a mapping containing
`runs-on` and containing `steps` with a sequence as value; `name` and the shapes
of `on` and `runs-on` do not occur in the condition. -/
theorem C2_structure_true_iff (w : World) (f data : String) (r : Run)
    (hread : w.readFile f = .ok data) :
    (ValidateWorkflowStructure w f r).1 = true
      ↔ ∃ workflow : GoMap, w.unmarshalMap data = .ok (some workflow)
          ∧ (∃ x, List.lookup "on" workflow = some x)
          ∧ ∃ jobs : GoMap, List.lookup "jobs" workflow = some (Value.map jobs)
              ∧ jobs ≠ []
              ∧ ∀ jb ∈ jobs, ∃ job : GoMap, jb.2 = Value.map job
                  ∧ (∃ x, List.lookup "runs-on" job = some x)
                  ∧ (∃ steps, List.lookup "steps" job = some (Value.seq steps)) := by
  rw [ValidateWorkflowStructure_true_iff]
  constructor
  · rintro ⟨data2, wf, h1, h2, h3⟩
    rw [hread] at h1
    cases h1
    exact ⟨wf, h2, h3⟩
  · rintro ⟨wf, h2, h3⟩
    exact ⟨data, wf, hread, h2, h3⟩

/-- C2, at concrete inputs: `ok.yml` of the sample world decodes to a mapping that
meets the schema and passes; `list.yml` parses as a sequence, its decode into a
map fails, and the structure check returns false. -/
theorem C2_structure_true_iff_witness :
    ((ValidateWorkflowStructure sampleWorld "ok.yml" (Run.start false)).1 = true
      ∧ (orderWorld false false).unmarshalAny "list.yml" = .ok (Value.seq [Value.scalar "a"])
      ∧ (ValidateWorkflowStructure (orderWorld false false) "list.yml" (Run.start false)).1
          = false)
    ∧ ((ValidateWorkflowStructure sampleWorld "ok.yml" (Run.start false)).1 = true
      ↔ ∃ workflow : GoMap, sampleWorld.unmarshalMap "ok.yml" = .ok (some workflow)
          ∧ (∃ x, List.lookup "on" workflow = some x)
          ∧ ∃ jobs : GoMap, List.lookup "jobs" workflow = some (Value.map jobs)
              ∧ jobs ≠ []
              ∧ ∀ jb ∈ jobs, ∃ job : GoMap, jb.2 = Value.map job
                  ∧ (∃ x, List.lookup "runs-on" job = some x)
                  ∧ (∃ steps, List.lookup "steps" job = some (Value.seq steps)))
    ∧ ((ValidateWorkflowStructure (orderWorld false false) "list.yml" (Run.start false)).1 = true
      ↔ ∃ workflow : GoMap,
          (orderWorld false false).unmarshalMap "list.yml" = .ok (some workflow)
          ∧ (∃ x, List.lookup "on" workflow = some x)
          ∧ ∃ jobs : GoMap, List.lookup "jobs" workflow = some (Value.map jobs)
              ∧ jobs ≠ []
              ∧ ∀ jb ∈ jobs, ∃ job : GoMap, jb.2 = Value.map job
                  ∧ (∃ x, List.lookup "runs-on" job = some x)
                  ∧ (∃ steps, List.lookup "steps" job = some (Value.seq steps))) :=
  ⟨⟨by decide, rfl, by decide⟩,
   C2_structure_true_iff sampleWorld "ok.yml" "ok.yml" (Run.start false) rfl,
   C2_structure_true_iff (orderWorld false false) "list.yml" "list.yml" (Run.start false) rfl⟩

/-- C3 (amended): take two decoded top-level mappings, the first without `name`
and the second with it, that agree on every other key, the entries of `jobs`
possibly listed in another order (the same file before and after a `name` key
is added; the order in which Go ranges over `jobs` is not fixed).
`ValidateWorkflowStructure` returns the same result on both and appends the same
number of errors; and when the two runs visit the jobs in the same order, they
append the same errors, and the warnings appended without `name` are the
missing-`name` warning followed by the warnings appended with `name`. -/
theorem C3_name_only_warns (w1 w2 : World) (f d1 d2 : String) (wa wb : GoMap) (r : Run)
    (hread1 : w1.readFile f = .ok d1) (hparse1 : w1.unmarshalMap d1 = .ok (some wa))
    (hread2 : w2.readFile f = .ok d2) (hparse2 : w2.unmarshalMap d2 = .ok (some wb))
    (ha : List.lookup "name" wa = none)
    (hb : ∃ x, List.lookup "name" wb = some x)
    (hsame : ∀ k : String, k ≠ "name" → k ≠ "jobs" → List.lookup k wa = List.lookup k wb)
    (hjobs : List.lookup "jobs" wa = List.lookup "jobs" wb
      ∨ ∃ ja jb : GoMap, List.lookup "jobs" wa = some (Value.map ja)
          ∧ List.lookup "jobs" wb = some (Value.map jb) ∧ ja.Perm jb) :
    (ValidateWorkflowStructure w1 f r).1 = (ValidateWorkflowStructure w2 f r).1
    ∧ (ValidateWorkflowStructure w1 f r).2.v.errors.length
        = (ValidateWorkflowStructure w2 f r).2.v.errors.length
    ∧ (List.lookup "jobs" wa = List.lookup "jobs" wb →
        (ValidateWorkflowStructure w1 f r).2.v.errors
          = (ValidateWorkflowStructure w2 f r).2.v.errors
        ∧ ∃ ws : List String,
            (ValidateWorkflowStructure w2 f r).2.v.warnings = r.v.warnings ++ ws
            ∧ (ValidateWorkflowStructure w1 f r).2.v.warnings
                = r.v.warnings ++ ("⚠ " ++ f ++ ": Missing 'name' field (recommended)") :: ws) := by
  have e1 := ValidateWorkflowStructure_of_parsed w1 f d1 wa r hread1 hparse1
  have e2 := ValidateWorkflowStructure_of_parsed w2 f d2 wb r hread2 hparse2
  have hon : List.lookup "on" wa = List.lookup "on" wb := hsame "on" (by decide) (by decide)
  have hres : (ValidateWorkflowStructure w1 f r).1 = (ValidateWorkflowStructure w2 f r).1 := by
    rw [e1, e2]
    exact checkWorkflow_result_congr f f wa wb r r hon hjobs
  have c1 := ValidateWorkflowStructure_count w1 f r
  have c2 := ValidateWorkflowStructure_count w2 f r
  rw [← hres] at c2
  refine ⟨hres, by rw [c1, c2], ?_⟩
  intro hj
  have hall : ∀ k : String, k ≠ "name" → List.lookup k wa = List.lookup k wb := by
    intro k hk
    by_cases hkj : k = "jobs"
    · subst hkj; exact hj
    · exact hsame k hk hkj
  rw [e1, e2, checkWorkflow_without_name f wa wb r ha hb hall]
  have hA := checkWorkflow_extend f wb
    (r.addWarning ("⚠ " ++ f ++ ": Missing 'name' field (recommended)")) (Run.start r.v.verbose)
  have hB := checkWorkflow_extend f wb r (Run.start r.v.verbose)
  rw [extend_start] at hB
  have hs : (r.addWarning ("⚠ " ++ f ++ ": Missing 'name' field (recommended)")).extend
      (Run.start r.v.verbose) = r.addWarning ("⚠ " ++ f ++ ": Missing 'name' field (recommended)") :=
    extend_start (r.addWarning ("⚠ " ++ f ++ ": Missing 'name' field (recommended)"))
  rw [hs] at hA
  rw [hA, hB]
  refine ⟨?_, (checkWorkflow f wb (Run.start r.v.verbose)).2.v.warnings, ?_, ?_⟩
  · simp [Run.extend]
  · simp [Run.extend]
  · simp [Run.extend]

/-- C3 (amended), at concrete inputs: `both.yml` without `name` and jobs visited
a, b against `both.yml` with `name` and jobs visited b, a (same result, one error
each); and `ok.yml` of the sample world before and after `name: x` is added,
with the jobs in the same order. -/
theorem C3_name_only_warns_witness :
    ((ValidateWorkflowStructure (orderWorld false false) "both.yml" (Run.start false)).1
        = (ValidateWorkflowStructure (orderWorld true true) "both.yml" (Run.start false)).1
      ∧ (ValidateWorkflowStructure (orderWorld false false) "both.yml"
            (Run.start false)).2.v.errors.length
        = (ValidateWorkflowStructure (orderWorld true true) "both.yml"
            (Run.start false)).2.v.errors.length)
    ∧ ((ValidateWorkflowStructure sampleWorld "ok.yml" (Run.start false)).2.v.errors
        = (ValidateWorkflowStructure sampleWorldNamed "ok.yml" (Run.start false)).2.v.errors
      ∧ ∃ ws : List String,
          (ValidateWorkflowStructure sampleWorldNamed "ok.yml" (Run.start false)).2.v.warnings
            = (Run.start false).v.warnings ++ ws
          ∧ (ValidateWorkflowStructure sampleWorld "ok.yml" (Run.start false)).2.v.warnings
              = (Run.start false).v.warnings
                  ++ ("⚠ " ++ "ok.yml" ++ ": Missing 'name' field (recommended)") :: ws) :=
  by
  have h1 := C3_name_only_warns (orderWorld false false) (orderWorld true true)
    "both.yml" "both.yml" "both.yml"
    [("on", Value.scalar "push"),
     ("jobs", Value.map [("a", Value.map []), ("b", Value.map [])])]
    [("name", Value.scalar "x"), ("on", Value.scalar "push"),
     ("jobs", Value.map [("b", Value.map []), ("a", Value.map [])])]
    (Run.start false) rfl rfl rfl rfl rfl ⟨_, rfl⟩
    (by
      intro k hk hkj
      have hk1 : (k == "name") = false := by simpa using hk
      have hk2 : (k == "jobs") = false := by simpa using hkj
      simp [List.lookup, hk1, hk2])
    (Or.inr ⟨_, _, rfl, rfl, List.Perm.swap _ _ _⟩)
  have h2 := C3_name_only_warns sampleWorld sampleWorldNamed "ok.yml" "ok.yml" "ok.yml"
    [("on", Value.scalar "push"), ("jobs", Value.map [("build", sampleJob)])]
    [("name", Value.scalar "x"), ("on", Value.scalar "push"),
      ("jobs", Value.map [("build", sampleJob)])]
    (Run.start false) rfl rfl rfl rfl rfl ⟨_, rfl⟩
    (by
      intro k hk hkj
      have hk1 : (k == "name") = false := by simpa using hk
      have hk2 : (k == "jobs") = false := by simpa using hkj
      simp [List.lookup, hk1, hk2])
    (Or.inl rfl)
  exact ⟨⟨h1.1, h1.2.1⟩, h2.2.2 rfl⟩

/-- C3 as stated fails: `both.yml` holds two jobs that both lack `runs-on`.  A run
on the file without `name` that visits the job `a` first and a run on the file
with `name` that visits the job `b` first append different errors. -/
theorem C3_counterexample :
    ¬ (∀ (w1 w2 : World) (f d1 d2 : String) (wa wb : GoMap) (r : Run),
        w1.readFile f = .ok d1 → w1.unmarshalMap d1 = .ok (some wa) →
        w2.readFile f = .ok d2 → w2.unmarshalMap d2 = .ok (some wb) →
        List.lookup "name" wa = none →
        (∃ x, List.lookup "name" wb = some x) →
        (∀ k : String, k ≠ "name" → k ≠ "jobs" → List.lookup k wa = List.lookup k wb) →
        (List.lookup "jobs" wa = List.lookup "jobs" wb
          ∨ ∃ ja jb : GoMap, List.lookup "jobs" wa = some (Value.map ja)
              ∧ List.lookup "jobs" wb = some (Value.map jb) ∧ ja.Perm jb) →
        (ValidateWorkflowStructure w1 f r).2.v.errors
          = (ValidateWorkflowStructure w2 f r).2.v.errors) := by
  intro h
  have h1 := h (orderWorld false false) (orderWorld true true) "both.yml" "both.yml" "both.yml"
    [("on", Value.scalar "push"),
     ("jobs", Value.map [("a", Value.map []), ("b", Value.map [])])]
    [("name", Value.scalar "x"), ("on", Value.scalar "push"),
     ("jobs", Value.map [("b", Value.map []), ("a", Value.map [])])]
    (Run.start false) rfl rfl rfl rfl rfl ⟨_, rfl⟩
    (by
      intro k hk hkj
      have hk1 : (k == "name") = false := by simpa using hk
      have hk2 : (k == "jobs") = false := by simpa using hkj
      simp [List.lookup, hk1, hk2])
    (Or.inr ⟨_, _, rfl, rfl, List.Perm.swap _ _ _⟩)
  have e1 : (ValidateWorkflowStructure (orderWorld false false) "both.yml"
      (Run.start false)).2.v.errors
      = ["✗ both.yml: Job 'a' missing required 'runs-on' field"] := by decide
  have e2 : (ValidateWorkflowStructure (orderWorld true true) "both.yml"
      (Run.start false)).2.v.errors
      = ["✗ both.yml: Job 'b' missing required 'runs-on' field"] := by decide
  rw [e1, e2] at h1
  revert h1
  decide

/-- C4 (amended): for a decoded mapping that contains `on` and whose `jobs` is a
mapping in which `j` is the first job, in iteration order, that violates a job
rule, `ValidateWorkflowStructure` returns false, appends exactly one error, one
of the four errors naming `j`, and appends as warnings only the missing-`name`
warning (if due) and the "has no steps" warnings of the jobs before `j`: the
jobs after `j` contribute nothing, and nothing is printed. -/
theorem C4_first_job_error (w : World) (f data : String) (wf pre post : GoMap) (j : String)
    (body : Value) (r : Run)
    (hread : w.readFile f = .ok data) (hparse : w.unmarshalMap data = .ok (some wf))
    (hon : ∃ x, List.lookup "on" wf = some x)
    (hjobs : List.lookup "jobs" wf = some (Value.map (pre ++ (j, body) :: post)))
    (hpre : ∀ jb ∈ pre, JobWellFormed jb.2) (hbad : ¬ JobWellFormed body) :
    ∃ e, e ∈ jobErrors f j
      ∧ ValidateWorkflowStructure w f r
          = (false,
             { v := { verbose := r.v.verbose,
                      errors := r.v.errors ++ [e],
                      warnings := r.v.warnings ++ (nameWarnings f wf ++ noStepsWarnings f pre) },
               stdout := r.stdout }) := by
  obtain ⟨onv, hon⟩ := hon
  obtain ⟨e, hmem, he⟩ := validateJobs_first_bad f j body post
    ((checkName f wf r).addWarnings (noStepsWarnings f pre)) hbad
  refine ⟨e, hmem, ?_⟩
  have hlen : (pre ++ (j, body) :: post).length ≠ 0 := by simp
  unfold ValidateWorkflowStructure
  simp only [hread, hparse]
  unfold checkWorkflow
  simp only [hon, hjobs, if_neg hlen]
  rw [validateJobs_wellFormed_append f pre _ _ hpre, he, checkName_eq]
  simp [Run.addWarnings, Run.addError]

/-- C4 (amended), at a concrete input: in `two.yml` the first of two jobs lacks
`steps` and the second is valid; exactly one error is recorded, for the first. -/
theorem C4_first_job_error_witness :
    ∃ e, e ∈ jobErrors "two.yml" "first"
      ∧ ValidateWorkflowStructure sampleWorld "two.yml" (Run.start false)
          = (false,
             { v := { verbose := (Run.start false).v.verbose,
                      errors := (Run.start false).v.errors ++ [e],
                      warnings := (Run.start false).v.warnings
                        ++ (nameWarnings "two.yml"
                              [("on", Value.scalar "push"),
                               ("jobs", Value.map
                                  ([] ++ ("first", Value.map [("runs-on", Value.scalar "ubuntu")])
                                    :: [("second", sampleJob)]))]
                            ++ noStepsWarnings "two.yml" []) },
               stdout := (Run.start false).stdout }) :=
  C4_first_job_error sampleWorld "two.yml" "two.yml" _ [] [("second", sampleJob)] "first"
    (Value.map [("runs-on", Value.scalar "ubuntu")]) (Run.start false) rfl rfl ⟨_, rfl⟩ rfl
    (by intro jb hjb; cases hjb)
    (by
      rintro ⟨job, h1, _, steps, h3⟩
      cases h1
      have hnone : List.lookup "steps" [("runs-on", Value.scalar "ubuntu")] = none := rfl
      rw [hnone] at h3
      cases h3)

/-- C4 as stated fails: `orphan.yml` has a non-empty `jobs` mapping whose first job
lacks `steps`, but no `on`; the one error appended is the missing-`on` error,
which names no job. -/
theorem C4_counterexample :
    ¬ (∀ (w : World) (f data : String) (wf pre post : GoMap) (j : String) (body : Value) (r : Run),
        w.readFile f = .ok data → w.unmarshalMap data = .ok (some wf) →
        List.lookup "jobs" wf = some (Value.map (pre ++ (j, body) :: post)) →
        (∀ jb ∈ pre, JobWellFormed jb.2) → ¬ JobWellFormed body →
        ∃ e, e ∈ jobErrors f j
          ∧ (ValidateWorkflowStructure w f r).1 = false
          ∧ (ValidateWorkflowStructure w f r).2.v.errors = r.v.errors ++ [e]) := by
  intro h
  obtain ⟨e, hmem, _, herr⟩ := h sampleWorld "orphan.yml" "orphan.yml"
    [("jobs", Value.map [("first", Value.map [("runs-on", Value.scalar "ubuntu")]),
                         ("second", sampleJob)])]
    [] [("second", sampleJob)] "first" (Value.map [("runs-on", Value.scalar "ubuntu")])
    (Run.start false) rfl rfl rfl (by intro jb hjb; cases hjb)
    (by
      rintro ⟨job, h1, _, steps, h3⟩
      cases h1
      have hnone : List.lookup "steps" [("runs-on", Value.scalar "ubuntu")] = none := rfl
      rw [hnone] at h3
      cases h3)
  have hval : (ValidateWorkflowStructure sampleWorld "orphan.yml" (Run.start false)).2.v.errors
      = ["✗ orphan.yml: Missing required 'on' field"] := by decide
  rw [hval] at herr
  have he : e = "✗ orphan.yml: Missing required 'on' field" := by
    simpa [Run.start, NewValidator] using herr.symm
  subst he
  revert hmem
  decide

/-- C5: for a decoded top-level mapping without the key `on`, whatever else it
contains, `ValidateWorkflowStructure` returns false, appends exactly one error,
the missing-`on` error of the file, appends no warning other than the
missing-`name` warning (if due), and prints nothing: no diagnostic about `jobs`
or about a job is produced. -/
theorem C5_missing_on (w : World) (f data : String) (wf : GoMap) (r : Run)
    (hread : w.readFile f = .ok data) (hparse : w.unmarshalMap data = .ok (some wf))
    (hon : List.lookup "on" wf = none) :
    ValidateWorkflowStructure w f r
      = (false,
         { v := { verbose := r.v.verbose,
                  errors := r.v.errors ++ ["✗ " ++ f ++ ": Missing required 'on' field"],
                  warnings := r.v.warnings ++ nameWarnings f wf },
           stdout := r.stdout }) := by
  unfold ValidateWorkflowStructure
  simp only [hread, hparse]
  unfold checkWorkflow
  simp only [hon, checkName_eq]
  simp [Run.addWarnings, Run.addError]

/-- C5, at a concrete input: `noon.yml` is `{jobs: 3}`, with a malformed `jobs`
and no `on`. -/
theorem C5_missing_on_witness :
    List.lookup "on" [("jobs", Value.scalar "3")] = none
    ∧ ValidateWorkflowStructure sampleWorld "noon.yml" (Run.start true)
      = (false,
         { v := { verbose := (Run.start true).v.verbose,
                  errors := (Run.start true).v.errors
                    ++ ["✗ " ++ "noon.yml" ++ ": Missing required 'on' field"],
                  warnings := (Run.start true).v.warnings
                    ++ nameWarnings "noon.yml" [("jobs", Value.scalar "3")] },
           stdout := (Run.start true).stdout }) :=
  ⟨rfl, C5_missing_on sampleWorld "noon.yml" "noon.yml" [("jobs", Value.scalar "3")]
    (Run.start true) rfl rfl rfl⟩

/-- C6: for an existing, readable file whose content the library fails to decode,
`ValidateFile` returns false and appends exactly one error, the syntax error of
`ValidateYAMLSyntax`; the only warning it can append is the extension warning,
so nothing of the structure check (which depends on `unmarshalMap` alone) is
recorded. -/
theorem C6_syntax_error_only (w : World) (f data err : String) (isDir : Bool) (r : Run)
    (hstat : w.stat f = .ok isDir) (hread : w.readFile f = .ok data)
    (hsyn : w.unmarshalAny data = .error err) :
    (ValidateFile w f r).1 = false
    ∧ (ValidateFile w f r).2.v.errors
        = r.v.errors ++ ["✗ " ++ f ++ ": YAML syntax error: " ++ err]
    ∧ (ValidateFile w f r).2.v.warnings = r.v.warnings ++ extensionWarnings f := by
  have hne : statNotExist w f = false := by unfold statNotExist; simp only [hstat]
  have hy : ∀ r1 : Run, ValidateYAMLSyntax w f r1
      = (false, r1.addError ("✗ " ++ f ++ ": YAML syntax error: " ++ err)) := by
    intro r1; unfold ValidateYAMLSyntax; simp only [hread, hsyn]
  unfold ValidateFile
  simp only [hne, Bool.false_eq_true, if_false, hy, checkExtension_eq]
  simp [Run.addWarnings]

/-- C6, at a concrete input: `bad.yml` of the sample world does not decode. -/
theorem C6_syntax_error_only_witness :
    sampleWorld.unmarshalAny "bad.yml" = .error "yaml: line 1: did not find expected key"
    ∧ (ValidateFile sampleWorld "bad.yml" (Run.start false)).1 = false
    ∧ (ValidateFile sampleWorld "bad.yml" (Run.start false)).2.v.errors
        = (Run.start false).v.errors
            ++ ["✗ " ++ "bad.yml" ++ ": YAML syntax error: "
                  ++ "yaml: line 1: did not find expected key"]
    ∧ (ValidateFile sampleWorld "bad.yml" (Run.start false)).2.v.warnings
        = (Run.start false).v.warnings ++ extensionWarnings "bad.yml" :=
  ⟨rfl, C6_syntax_error_only sampleWorld "bad.yml" "bad.yml" _ false (Run.start false) rfl rfl rfl⟩

/-- C7: for an existing directory whose walk succeeds and discovers the non-empty
list `files` of workflow files, `ValidateDirectory` returns the conjunction of
the results of `ValidateFile` on every file of the list, and the errors, the
warnings and the output it appends are the concatenation, in the order of the
list, of what `ValidateFile` appends for each file (each taken from a fresh
validator with the same verbose flag): a failure does not stop the loop. -/
theorem C7_directory_conjunction (w : World) (dir : String) (files : List String) (r : Run)
    (hstat : w.stat dir = .ok true)
    (hwalk : collectWorkflowFiles (w.walkDir dir) [] = .ok files)
    (hne : files ≠ []) :
    (ValidateDirectory w dir r).1
        = files.all (fun f => (ValidateFile w f (Run.start r.v.verbose)).1)
    ∧ (ValidateDirectory w dir r).2.v.errors
        = r.v.errors
          ++ files.flatMap (fun f => (ValidateFile w f (Run.start r.v.verbose)).2.v.errors)
    ∧ (ValidateDirectory w dir r).2.v.warnings
        = r.v.warnings
          ++ files.flatMap (fun f => (ValidateFile w f (Run.start r.v.verbose)).2.v.warnings)
    ∧ (ValidateDirectory w dir r).2.stdout
        = r.stdout
          ++ files.flatMap (fun f => (ValidateFile w f (Run.start r.v.verbose)).2.stdout) := by
  have hlen : files.length ≠ 0 := fun h => hne (List.length_eq_zero.mp h)
  obtain ⟨i1, _, i3, i4, i5⟩ := validateFiles_spec w files true r
  unfold ValidateDirectory
  simp only [hstat, hwalk, Bool.not_true, Bool.false_eq_true, if_false, if_neg hlen]
  exact ⟨by simpa using i1, i3, i4, i5⟩

/-- C7, at a concrete input: the directory `wf` of the sample world holds three
workflow files of which exactly one, `wf/noon.yml`, is structurally invalid; the
result is false and the diagnostics of all three files are recorded, in order. -/
theorem C7_directory_conjunction_witness :
    (collectWorkflowFiles (sampleWorld.walkDir "wf") []
        = .ok ["wf/ok.yml", "wf/noon.yml", "wf/nosteps.yml"]
      ∧ ValidateDirectory sampleWorld "wf" (Run.start false)
        = (false,
           { v := { verbose := false,
                    errors := ["✗ wf/noon.yml: Missing required 'on' field"],
                    warnings := ["⚠ wf/ok.yml: Missing 'name' field (recommended)",
                                 "⚠ wf/noon.yml: Missing 'name' field (recommended)",
                                 "⚠ wf/nosteps.yml: Job 'idle' has no steps"] },
             stdout := [] }))
    ∧ ((ValidateDirectory sampleWorld "wf" (Run.start false)).1
        = ["wf/ok.yml", "wf/noon.yml", "wf/nosteps.yml"].all
            (fun f => (ValidateFile sampleWorld f (Run.start (Run.start false).v.verbose)).1)
      ∧ (ValidateDirectory sampleWorld "wf" (Run.start false)).2.v.errors
        = (Run.start false).v.errors
          ++ ["wf/ok.yml", "wf/noon.yml", "wf/nosteps.yml"].flatMap
              (fun f => (ValidateFile sampleWorld f (Run.start (Run.start false).v.verbose)).2.v.errors)
      ∧ (ValidateDirectory sampleWorld "wf" (Run.start false)).2.v.warnings
        = (Run.start false).v.warnings
          ++ ["wf/ok.yml", "wf/noon.yml", "wf/nosteps.yml"].flatMap
              (fun f => (ValidateFile sampleWorld f (Run.start (Run.start false).v.verbose)).2.v.warnings)
      ∧ (ValidateDirectory sampleWorld "wf" (Run.start false)).2.stdout
        = (Run.start false).stdout
          ++ ["wf/ok.yml", "wf/noon.yml", "wf/nosteps.yml"].flatMap
              (fun f => (ValidateFile sampleWorld f (Run.start (Run.start false).v.verbose)).2.stdout)) :=
  ⟨⟨rfl, by decide⟩,
   C7_directory_conjunction sampleWorld "wf" ["wf/ok.yml", "wf/noon.yml", "wf/nosteps.yml"]
    (Run.start false) rfl rfl (by simp)⟩

/-- C8: for a non-empty list of paths, the run loop processes every path: the
errors and warnings at its end are the concatenation, in order, of what each path
contributes; a path whose `os.Stat` fails contributes exactly the `Not found`
error and the result false, a directory is handed to `ValidateDirectory` and
anything else to `ValidateFile`; and the exit code of `main` is 0 if and only if
every path's result is true and the final error list is empty, and 1 otherwise. -/
theorem C8_run_controller (w : World) (verbose : Bool) (args : List String) (hne : args ≠ []) :
    ((runLoop w args true (Run.start verbose)).2.v.errors
        = args.flatMap (fun p => (processPath w p (Run.start verbose)).2.v.errors)
      ∧ (runLoop w args true (Run.start verbose)).2.v.warnings
        = args.flatMap (fun p => (processPath w p (Run.start verbose)).2.v.warnings))
    ∧ (∀ p r e, w.stat p = .error e →
          processPath w p r = (false, r.addError ("✗ " ++ p ++ ": Not found")))
    ∧ (∀ p r, w.stat p = .ok true → processPath w p r = ValidateDirectory w p r)
    ∧ (∀ p r, w.stat p = .ok false → processPath w p r = ValidateFile w p r)
    ∧ ((main w verbose args).2.1 = some (runLoop w args true (Run.start verbose)).2.v)
    ∧ ((main w verbose args).1 = 0
        ↔ (∀ p ∈ args, (processPath w p (Run.start verbose)).1 = true)
          ∧ (runLoop w args true (Run.start verbose)).2.v.errors = [])
    ∧ ((main w verbose args).1 ≠ 0 → (main w verbose args).1 = 1) := by
  obtain ⟨i1, _, i3, i4, _⟩ := runLoop_spec w args true (Run.start verbose)
  have hv : (Run.start verbose).v.verbose = verbose := rfl
  rw [hv] at i1 i3 i4
  have hlen : args.length ≠ 0 := fun h => hne (List.length_eq_zero.mp h)
  have hmain : main w verbose args
      = (if (!(runLoop w args true (Run.start verbose)).1
              || HasErrors (runLoop w args true (Run.start verbose)).2.v) = true
          then (1, some (runLoop w args true (Run.start verbose)).2.v,
                  (PrintSummary (runLoop w args true (Run.start verbose)).2).stdout)
          else (0, some (runLoop w args true (Run.start verbose)).2.v,
                  (PrintSummary (runLoop w args true (Run.start verbose)).2).stdout)) := by
    unfold main
    simp only [if_neg hlen, PrintSummary_v]
  refine ⟨⟨by simpa [Run.start, NewValidator] using i3,
           by simpa [Run.start, NewValidator] using i4⟩, ?_, ?_, ?_, ?_, ?_, ?_⟩
  · intro p r e h; unfold processPath; simp only [h]
  · intro p r h; unfold processPath; simp only [h, if_true]
  · intro p r h; unfold processPath; simp only [h, Bool.false_eq_true, if_false]
  · rw [hmain]; split <;> rfl
  · rw [hmain]
    have hall : (runLoop w args true (Run.start verbose)).1 = true
        ↔ ∀ p ∈ args, (processPath w p (Run.start verbose)).1 = true := by
      rw [i1]; simp
    rw [← hall]
    cases hb : (runLoop w args true (Run.start verbose)).1 <;>
      cases he : (runLoop w args true (Run.start verbose)).2.v.errors <;>
      simp [HasErrors, he]
  · rw [hmain]; split <;> simp

/-- C8, at a concrete input: the run on the missing path `gone` followed by the
valid file `named.yml` records the `Not found` error, still validates the second
path, and exits with code 1; the run on `named.yml` alone exits with code 0. -/
theorem C8_run_controller_witness :
    ((main sampleWorld false ["gone", "named.yml"]).1 = 1
      ∧ (main sampleWorld false ["gone", "named.yml"]).2.1
          = some { verbose := false, errors := ["✗ gone: Not found"], warnings := [] }
      ∧ (main sampleWorld true ["gone", "named.yml"]).2.2.take 3
          = ["\nValidating named.yml...\n", "✓ named.yml: Valid YAML syntax\n",
             "✓ named.yml: Valid workflow structure\n"]
      ∧ (main sampleWorld false ["named.yml"]).1 = 0)
    ∧ ((main sampleWorld false ["gone", "named.yml"]).1 = 0
        ↔ (∀ p ∈ ["gone", "named.yml"], (processPath sampleWorld p (Run.start false)).1 = true)
          ∧ (runLoop sampleWorld ["gone", "named.yml"] true (Run.start false)).2.v.errors = []) :=
  ⟨⟨by decide, by decide, by decide, by decide⟩,
   (C8_run_controller sampleWorld false ["gone", "named.yml"] (by simp)).2.2.2.2.2.1⟩

/-- C9 (amended): the verbose flag has no effect on the verdict, and none on the
diagnostics of runs that visit the jobs in the same order.  In one world (one
order of visit for every `jobs` mapping), each of `ValidateYAMLSyntax`,
`ValidateWorkflowStructure`, `ValidateFile` and `ValidateDirectory` run with
verbose false and with verbose true returns the same boolean and leaves the same
errors and the same warnings, the whole run has the same exit code and the same
final diagnostics, and the output printed without the flag is the output printed
with it, some chunks (the trace lines) left out.  Across two worlds that present
the same input, the orders of visit being free, each operation returns the same
boolean from any two states, and the exit code of the whole run is the same for
any two values of the flag. -/
theorem C9_verbose_no_effect (w w2 : World) (hin : SameInput w w2) :
    (∀ (f : String) (r : Run), SameOutcome (ValidateYAMLSyntax w f (r.withVerbose false))
              (ValidateYAMLSyntax w f (r.withVerbose true)))
    ∧ (∀ (f : String) (r : Run), SameOutcome (ValidateWorkflowStructure w f (r.withVerbose false))
              (ValidateWorkflowStructure w f (r.withVerbose true)))
    ∧ (∀ (f : String) (r : Run), SameOutcome (ValidateFile w f (r.withVerbose false))
              (ValidateFile w f (r.withVerbose true)))
    ∧ (∀ (d : String) (r : Run), SameOutcome (ValidateDirectory w d (r.withVerbose false))
              (ValidateDirectory w d (r.withVerbose true)))
    ∧ (∀ args : List String,
        (main w false args).1 = (main w true args).1
        ∧ (main w false args).2.1.map (fun v => (v.errors, v.warnings))
            = (main w true args).2.1.map (fun v => (v.errors, v.warnings))
        ∧ (main w false args).2.2.Sublist (main w true args).2.2)
    ∧ (∀ (f : String) (r r2 : Run),
        (ValidateYAMLSyntax w f r).1 = (ValidateYAMLSyntax w2 f r2).1)
    ∧ (∀ (f : String) (r r2 : Run),
        (ValidateWorkflowStructure w f r).1 = (ValidateWorkflowStructure w2 f r2).1)
    ∧ (∀ (f : String) (r r2 : Run), (ValidateFile w f r).1 = (ValidateFile w2 f r2).1)
    ∧ (∀ (d : String) (r r2 : Run),
        (ValidateDirectory w d r).1 = (ValidateDirectory w2 d r2).1)
    ∧ (∀ (args : List String) (v1 v2 : Bool), (main w v1 args).1 = (main w2 v2 args).1) := by
  obtain ⟨a1, a2, a3, a4, a5⟩ := verbose_same_order w
  refine ⟨a1, a2, a3, a4, a5,
    ValidateYAMLSyntax_result_congr w w2 hin,
    ValidateWorkflowStructure_result_congr w w2 hin,
    ValidateFile_result_congr w w2 hin,
    ValidateDirectory_result_congr w w2 hin, ?_⟩
  intro args v1 v2
  rw [main_exit, main_exit, runLoop_result_congr w w2 hin args true (Run.start v1) (Run.start v2)]

/-- C9 (amended), at a concrete input: `both.yml` with its two invalid jobs visited
a, b in one run and b, a in the other; the runs exit with the same code, 1, for
both values of the flag.  On `idle.yml`, whose two jobs have no steps, the two
runs pass with the same warnings in different orders. -/
theorem C9_verbose_no_effect_witness :
    SameInput (orderWorld false false) (orderWorld false true)
    ∧ (main (orderWorld false false) false ["both.yml"]).1 = 1
    ∧ ValidateWorkflowStructure (orderWorld false false) "idle.yml" (Run.start false)
        = (true, { v := { verbose := false, errors := [],
                          warnings := ["⚠ idle.yml: Missing 'name' field (recommended)",
                                       "⚠ idle.yml: Job 'a' has no steps",
                                       "⚠ idle.yml: Job 'b' has no steps"] },
                   stdout := [] })
    ∧ ValidateWorkflowStructure (orderWorld false true) "idle.yml" (Run.start false)
        = (true, { v := { verbose := false, errors := [],
                          warnings := ["⚠ idle.yml: Missing 'name' field (recommended)",
                                       "⚠ idle.yml: Job 'b' has no steps",
                                       "⚠ idle.yml: Job 'a' has no steps"] },
                   stdout := [] })
    ∧ (∀ (args : List String) (v1 v2 : Bool),
        (main (orderWorld false false) v1 args).1 = (main (orderWorld false true) v2 args).1) := by
  have hin := sameInput_orderWorld
  exact ⟨hin, by decide, by decide, by decide,
    (C9_verbose_no_effect (orderWorld false false) (orderWorld false true) hin).2.2.2.2.2.2.2.2.2⟩

/-- C9 as stated fails: two runs on `both.yml`, whose two jobs both lack `runs-on`,
one without the flag that visits the job `a` first and one with the flag that
visits the job `b` first, leave different error lists. -/
theorem C9_counterexample :
    ¬ (∀ (w1 w2 : World) (f : String) (r : Run), SameInput w1 w2 →
        (ValidateWorkflowStructure w1 f (r.withVerbose false)).2.v.errors
          = (ValidateWorkflowStructure w2 f (r.withVerbose true)).2.v.errors) := by
  intro h
  have hin := sameInput_orderWorld
  have h1 := h (orderWorld false false) (orderWorld false true) "both.yml" (Run.start false) hin
  have e1 : (ValidateWorkflowStructure (orderWorld false false) "both.yml"
      ((Run.start false).withVerbose false)).2.v.errors
      = ["✗ both.yml: Job 'a' missing required 'runs-on' field"] := by decide
  have e2 : (ValidateWorkflowStructure (orderWorld false true) "both.yml"
      ((Run.start false).withVerbose true)).2.v.errors
      = ["✗ both.yml: Job 'b' missing required 'runs-on' field"] := by decide
  rw [e1, e2] at h1
  revert h1
  decide

/-- C10 (amended): for a decoded mapping that contains `on` and whose `jobs` is a
non-empty mapping in which every job is a mapping with `runs-on` and a
sequence-valued `steps`, `ValidateWorkflowStructure` returns true, appends no
error, and appends as warnings the missing-`name` warning (if due) followed by
exactly one "has no steps" warning for each job whose `steps` sequence is empty,
in iteration order, and none for the other jobs. -/
theorem C10_empty_steps_warn (w : World) (f data : String) (wf jobs : GoMap) (r : Run)
    (hread : w.readFile f = .ok data) (hparse : w.unmarshalMap data = .ok (some wf))
    (hon : ∃ x, List.lookup "on" wf = some x)
    (hjobs : List.lookup "jobs" wf = some (Value.map jobs))
    (hne : jobs ≠ [])
    (hall : ∀ jb ∈ jobs, JobWellFormed jb.2) :
    (ValidateWorkflowStructure w f r).1 = true
    ∧ (ValidateWorkflowStructure w f r).2.v.errors = r.v.errors
    ∧ (ValidateWorkflowStructure w f r).2.v.warnings
        = r.v.warnings ++ (nameWarnings f wf ++ noStepsWarnings f jobs) := by
  obtain ⟨onv, hon⟩ := hon
  have hlen : jobs.length ≠ 0 := fun h => hne (List.length_eq_zero.mp h)
  have hloop := validateJobs_wellFormed_append f jobs [] (checkName f wf r) hall
  rw [List.append_nil] at hloop
  unfold ValidateWorkflowStructure
  simp only [hread, hparse]
  unfold checkWorkflow
  simp only [hon, hjobs, if_neg hlen]
  rw [hloop]
  simp only [validateJobs, checkName_eq]
  simp [Run.addWarnings]

/-- C10 (amended), at a concrete input: in `nosteps.yml` the job `idle` has an
empty `steps` sequence and the job `build` has two steps; the file passes with
one warning, for `idle`. -/
theorem C10_empty_steps_warn_witness :
    ValidateWorkflowStructure sampleWorld "nosteps.yml" (Run.start false)
      = (true,
         { v := { verbose := false, errors := [],
                  warnings := ["⚠ nosteps.yml: Job 'idle' has no steps"] },
           stdout := [] })
    ∧ ((ValidateWorkflowStructure sampleWorld "nosteps.yml" (Run.start false)).1 = true
      ∧ (ValidateWorkflowStructure sampleWorld "nosteps.yml" (Run.start false)).2.v.errors
          = (Run.start false).v.errors
      ∧ (ValidateWorkflowStructure sampleWorld "nosteps.yml" (Run.start false)).2.v.warnings
          = (Run.start false).v.warnings
            ++ (nameWarnings "nosteps.yml"
                  [("name", Value.scalar "x"), ("on", Value.scalar "push"),
                   ("jobs", Value.map [("idle", Value.map [("runs-on", Value.scalar "ubuntu"),
                                                           ("steps", Value.seq [])]),
                                       ("build", sampleJob)])]
                ++ noStepsWarnings "nosteps.yml"
                  [("idle", Value.map [("runs-on", Value.scalar "ubuntu"),
                                       ("steps", Value.seq [])]),
                   ("build", sampleJob)])) :=
  ⟨by decide,
   C10_empty_steps_warn sampleWorld "nosteps.yml" "nosteps.yml" _ _ (Run.start false)
    rfl rfl ⟨_, rfl⟩ rfl (by simp)
    (by
      intro jb hjb
      simp only [List.mem_cons, List.mem_singleton, List.not_mem_nil, or_false] at hjb
      rcases hjb with h | h
      · subst h; exact ⟨_, rfl, ⟨_, rfl⟩, ⟨_, rfl⟩⟩
      · subst h; exact ⟨_, rfl, ⟨_, rfl⟩, ⟨_, rfl⟩⟩)⟩

/-- C10 as stated fails: in `nojobs.yml`, `{on: push, jobs: {}}`, `on` is present
and every job (there is none) is well formed, yet the structure check returns
false and appends the "must contain at least one job" error. -/
theorem C10_counterexample :
    ¬ (∀ (w : World) (f data : String) (wf jobs : GoMap) (r : Run),
        w.readFile f = .ok data → w.unmarshalMap data = .ok (some wf) →
        (∃ x, List.lookup "on" wf = some x) →
        List.lookup "jobs" wf = some (Value.map jobs) →
        (∀ jb ∈ jobs, JobWellFormed jb.2) →
        (ValidateWorkflowStructure w f r).1 = true
          ∧ (ValidateWorkflowStructure w f r).2.v.errors = r.v.errors) := by
  intro h
  have h1 := (h sampleWorld "nojobs.yml" "nojobs.yml"
    [("on", Value.scalar "push"), ("jobs", Value.map [])] [] (Run.start false)
    rfl rfl ⟨_, rfl⟩ rfl (by intro jb hjb; cases hjb)).1
  have h2 : (ValidateWorkflowStructure sampleWorld "nojobs.yml" (Run.start false)).1 = false := by
    decide
  rw [h2] at h1
  cases h1

/-- C11: for a decoded top-level mapping that contains `on` and whose `jobs` is an
empty mapping, `ValidateWorkflowStructure` returns false and appends exactly one
error, "'jobs' must contain at least one job" (and no warning but the
missing-`name` warning, if due, so none when `name` is present); and when the
path is a file, the run on it exits with code 1. -/
theorem C11_empty_jobs_invalid (w : World) (f data : String) (wf : GoMap) (r : Run)
    (hread : w.readFile f = .ok data) (hparse : w.unmarshalMap data = .ok (some wf))
    (hon : ∃ x, List.lookup "on" wf = some x)
    (hjobs : List.lookup "jobs" wf = some (Value.map [])) :
    ValidateWorkflowStructure w f r
      = (false,
         { v := { verbose := r.v.verbose,
                  errors := r.v.errors ++ ["✗ " ++ f ++ ": 'jobs' must contain at least one job"],
                  warnings := r.v.warnings ++ nameWarnings f wf },
           stdout := r.stdout })
    ∧ ((∃ x, List.lookup "name" wf = some x) →
        (ValidateWorkflowStructure w f r).2.v.warnings = r.v.warnings)
    ∧ (w.stat f = .ok false → ∀ verbose : Bool, (main w verbose [f]).1 = 1) := by
  have hE := ValidateWorkflowStructure_emptyJobs w f data wf
  refine ⟨?_, ?_, ?_⟩
  · rw [hE r hread hparse hon hjobs]
    simp [Run.addWarnings, Run.addError]
  · rintro ⟨x, hx⟩
    rw [hE r hread hparse hon hjobs]
    simp [Run.addWarnings, nameWarnings, hx]
  · intro hstat verbose
    have hfalse : (ValidateFile w f (Run.start verbose)).1 = false := by
      rw [ValidateFile_eq_syntaxThenStructure w f _ (statNotExist_of_ok w f false hstat)]
      unfold syntaxThenStructure
      rcases hv : ValidateYAMLSyntax w f
        (checkExtension f (log ("\nValidating " ++ f ++ "...") (Run.start verbose))) with ⟨b, r2⟩
      cases b
      · rfl
      · simp only []
        rw [hE r2 hread hparse hon hjobs]
    rw [main_single_file w verbose f hstat, hfalse]
    simp

/-- C11, at a concrete input: `emptyjobs.yml` of the sample world is
`{name: x, on: push, jobs: {}}`; it is invalid with one error and no warning, and
the run on it exits with code 1. -/
theorem C11_empty_jobs_invalid_witness :
    (ValidateWorkflowStructure sampleWorld2 "emptyjobs.yml" (Run.start false)
        = (false,
           { v := { verbose := false,
                    errors := ["✗ emptyjobs.yml: 'jobs' must contain at least one job"],
                    warnings := [] },
             stdout := [] })
      ∧ main sampleWorld2 false ["emptyjobs.yml"]
        = (1, some { verbose := false,
                     errors := ["✗ emptyjobs.yml: 'jobs' must contain at least one job"],
                     warnings := [] },
           (PrintSummary
              { v := { verbose := false,
                       errors := ["✗ emptyjobs.yml: 'jobs' must contain at least one job"],
                       warnings := [] },
                stdout := [] }).stdout))
    ∧ (sampleWorld2.stat "emptyjobs.yml" = .ok false →
        ∀ verbose : Bool, (main sampleWorld2 verbose ["emptyjobs.yml"]).1 = 1) :=
  ⟨⟨by decide, by decide⟩,
   (C11_empty_jobs_invalid sampleWorld2 "emptyjobs.yml" "emptyjobs.yml"
      [("name", Value.scalar "x"), ("on", Value.scalar "push"), ("jobs", Value.map [])]
      (Run.start false) rfl rfl ⟨_, rfl⟩ rfl).2.2⟩

/-- C12: end to end, for an existing file with a `.yml` or `.yaml` extension whose
content decodes to `{on: push, jobs: {build: {runs-on: ubuntu, steps: [a, b]}}}`
(no `name`), the file is judged valid, the run ends with no error and exactly one
warning, the missing-`name` warning, and the exit code is 0. -/
theorem C12_end_to_end_valid (w : World) (f data : String) (doc : Value) (wf job : GoMap)
    (verbose : Bool)
    (hstat : w.stat f = .ok false)
    (hext : ToLower (Ext f) = ".yml" ∨ ToLower (Ext f) = ".yaml")
    (hread : w.readFile f = .ok data) (hsyn : w.unmarshalAny data = .ok doc)
    (hparse : w.unmarshalMap data = .ok (some wf))
    (hname : List.lookup "name" wf = none)
    (hon : List.lookup "on" wf = some (Value.scalar "push"))
    (hjobs : List.lookup "jobs" wf = some (Value.map [("build", Value.map job)]))
    (hruns : List.lookup "runs-on" job = some (Value.scalar "ubuntu"))
    (hsteps : List.lookup "steps" job = some (Value.seq [Value.scalar "a", Value.scalar "b"])) :
    (ValidateFile w f (Run.start verbose)).1 = true
    ∧ (main w verbose [f]).1 = 0
    ∧ (main w verbose [f]).2.1
        = some { verbose := verbose, errors := [],
                 warnings := ["⚠ " ++ f ++ ": Missing 'name' field (recommended)"] } := by
  have hall : ∀ jb ∈ [("build", Value.map job)], JobWellFormed jb.2 := by
    intro jb hjb
    simp only [List.mem_singleton] at hjb
    subst hjb
    exact ⟨job, rfl, ⟨_, hruns⟩, ⟨_, hsteps⟩⟩
  have hS := fun r => ValidateWorkflowStructure_wellFormed w f data wf
    [("build", Value.map job)] r hread hparse ⟨_, hon⟩ hjobs (by simp) hall
  have hY : ∀ r, ValidateYAMLSyntax w f r = (true, log ("✓ " ++ f ++ ": Valid YAML syntax") r) := by
    intro r; unfold ValidateYAMLSyntax; simp only [hread, hsyn]
  have hno : noStepsWarnings f [("build", Value.map job)] = [] := by
    simp [noStepsWarnings, hasEmptySteps, hsteps]
  have hnw : nameWarnings f wf = ["⚠ " ++ f ++ ": Missing 'name' field (recommended)"] := by
    simp [nameWarnings, hname]
  have hce : ∀ r, checkExtension f r = r := by
    intro r
    rw [checkExtension_eq]
    simp only [extensionWarnings, if_pos hext, addWarnings_nil]
  have hF : ValidateFile w f (Run.start verbose)
      = (true, log ("✓ " ++ f ++ ": Valid workflow structure")
          ((log ("✓ " ++ f ++ ": Valid YAML syntax")
            (log ("\nValidating " ++ f ++ "...") (Run.start verbose))).addWarnings
              ["⚠ " ++ f ++ ": Missing 'name' field (recommended)"])) := by
    rw [ValidateFile_eq_syntaxThenStructure w f _ (statNotExist_of_ok w f false hstat)]
    unfold syntaxThenStructure
    simp only [hce, hY, hS, hno, hnw, List.append_nil]
  rw [main_single_file w verbose f hstat, hF]
  refine ⟨rfl, ?_, ?_⟩
  · simp [HasErrors, Run.addWarnings, Run.start, NewValidator, log_v]
  · simp [HasErrors, Run.addWarnings, Run.start, NewValidator, log_v]

/-- C12, at a concrete input: the run on `ok.yml` of the sample world. -/
theorem C12_end_to_end_valid_witness :
    (ToLower (Ext "ok.yml") = ".yml" ∨ ToLower (Ext "ok.yml") = ".yaml")
    ∧ (ValidateFile sampleWorld "ok.yml" (Run.start false)).1 = true
    ∧ (main sampleWorld false ["ok.yml"]).1 = 0
    ∧ (main sampleWorld false ["ok.yml"]).2.1
        = some { verbose := false, errors := [],
                 warnings := ["⚠ " ++ "ok.yml" ++ ": Missing 'name' field (recommended)"] } :=
  ⟨by decide,
   C12_end_to_end_valid sampleWorld "ok.yml" "ok.yml" Value.null
    [("on", Value.scalar "push"), ("jobs", Value.map [("build", sampleJob)])]
    [("runs-on", Value.scalar "ubuntu"),
     ("steps", Value.seq [Value.scalar "a", Value.scalar "b"])]
    false rfl (by decide) rfl rfl rfl rfl rfl rfl rfl rfl⟩

/-- C13 (amended): for an existing directory whose walk reports no error and
beneath which no file has a workflow extension, `ValidateDirectory` returns true
and appends exactly one warning, "No workflow files found", and no error; for a
path whose `os.Stat` fails or that is not a directory it returns false and
appends exactly one error, and nothing else happens (no file is validated). -/
theorem C13_directory_edges (w : World) (dir : String) (r : Run) :
    (w.stat dir = .ok true →
      (∀ e ∈ w.walkDir dir, e.err = none) →
      (∀ e ∈ w.walkDir dir, e.isDir = false →
          ¬ (ToLower (Ext e.path) = ".yml" ∨ ToLower (Ext e.path) = ".yaml")) →
      ValidateDirectory w dir r
        = (true, r.addWarning ("⚠ " ++ dir ++ ": No workflow files found")))
    ∧ (∀ e, w.stat dir = .error e →
        ValidateDirectory w dir r = (false, r.addError ("✗ " ++ dir ++ ": " ++ e.text)))
    ∧ (w.stat dir = .ok false →
        ValidateDirectory w dir r = (false, r.addError ("✗ " ++ dir ++ ": Not a directory"))) := by
  refine ⟨?_, ?_, ?_⟩
  · intro hstat herr hext
    have hc := collectWorkflowFiles_none (w.walkDir dir) [] herr hext
    unfold ValidateDirectory
    simp only [hstat, hc, Bool.not_true, Bool.false_eq_true, if_false, List.length_nil, if_true]
  · intro e hstat
    unfold ValidateDirectory
    simp only [hstat]
  · intro hstat
    unfold ValidateDirectory
    simp only [hstat, Bool.not_false, if_true]

/-- C13 (amended), at concrete inputs: the directory `empty` of the second sample
world holds two files, neither with a workflow extension; the path `gone` does
not exist; `emptyjobs.yml` is a file, not a directory. -/
theorem C13_directory_edges_witness :
    ValidateDirectory sampleWorld2 "empty" (Run.start false)
      = (true, (Run.start false).addWarning ("⚠ " ++ "empty" ++ ": No workflow files found"))
    ∧ ValidateDirectory sampleWorld2 "gone" (Run.start false)
      = (false, (Run.start false).addError
          ("✗ " ++ "gone" ++ ": " ++ "stat gone: no such file or directory"))
    ∧ ValidateDirectory sampleWorld2 "emptyjobs.yml" (Run.start false)
      = (false, (Run.start false).addError ("✗ " ++ "emptyjobs.yml" ++ ": Not a directory")) :=
  ⟨(C13_directory_edges sampleWorld2 "empty" (Run.start false)).1 rfl
      (by intro e he; revert e he; decide)
      (by intro e he; revert e he; decide),
   (C13_directory_edges sampleWorld2 "gone" (Run.start false)).2.1 _ rfl,
   (C13_directory_edges sampleWorld2 "emptyjobs.yml" (Run.start false)).2.2 rfl⟩

/-- C13 as stated fails: beneath the directory `locked` of the second sample world
there is no file with a workflow extension, but its subdirectory cannot be read;
the walk ends with that error and `ValidateDirectory` returns false with one
error and no warning. -/
theorem C13_counterexample :
    ¬ (∀ (w : World) (dir : String) (r : Run),
        w.stat dir = .ok true →
        (∀ e ∈ w.walkDir dir, e.isDir = false →
            ¬ (ToLower (Ext e.path) = ".yml" ∨ ToLower (Ext e.path) = ".yaml")) →
        (ValidateDirectory w dir r).1 = true
          ∧ (ValidateDirectory w dir r).2.v.errors = r.v.errors) := by
  intro h
  have h1 := (h sampleWorld2 "locked" (Run.start false) rfl
    (by intro e he; revert e he; decide)).1
  have h2 : ValidateDirectory sampleWorld2 "locked" (Run.start false)
      = (false, (Run.start false).addError
          ("✗ locked: Error reading directory: open locked/sub: permission denied")) := by
    decide
  rw [h2] at h1
  cases h1

/-- C14: for an existing file, the boolean result of `ValidateFile` and the errors
it leaves are those of the syntax check followed by the structure check, whatever
the extension; the warnings it appends are the extension warning, if due,
followed by the warnings of those checks, and the extension warning is among
them if and only if the lower-cased extension of the path is neither `.yml` nor
`.yaml`.  In particular a path whose extension is `.YML` or `.Yaml` gets no
extension warning. -/
theorem C14_extension_only_warns (w : World) (f : String) (isDir : Bool) (r : Run)
    (hstat : w.stat f = .ok isDir) :
    (ValidateFile w f r).1 = (syntaxThenStructure w f r).1
    ∧ (ValidateFile w f r).2.v.errors = (syntaxThenStructure w f r).2.v.errors
    ∧ (∃ ws : List String,
        (ValidateFile w f r).2.v.warnings = r.v.warnings ++ ws
        ∧ ws = extensionWarnings f
                ++ (syntaxThenStructure w f (Run.start r.v.verbose)).2.v.warnings
        ∧ (("⚠ " ++ f ++ ": File extension should be .yml or .yaml") ∈ ws
            ↔ (ToLower (Ext f) ≠ ".yml" ∧ ToLower (Ext f) ≠ ".yaml")))
    ∧ (∀ p : String, Ext p = ".YML" ∨ Ext p = ".Yaml" → extensionWarnings p = []) := by
  have hV := ValidateFile_eq_syntaxThenStructure w f r (statNotExist_of_ok w f isDir hstat)
  have hF := syntaxThenStructure_frame w f
    (checkExtension f (log ("\nValidating " ++ f ++ "...") r))
  have hR := syntaxThenStructure_frame w f r
  have hvb : (checkExtension f (log ("\nValidating " ++ f ++ "...") r)).v.verbose
      = r.v.verbose := by simp
  rw [hvb] at hF
  have hinv := syntaxThenStructure_inv w f (Run.start r.v.verbose)
    (by intro x hx; cases hx)
  refine ⟨?_, ?_, ⟨_, ?_, rfl, ?_⟩, ?_⟩
  · rw [hV, hF, hR]
  · rw [hV, hF, hR]; simp [Run.extend]
  · rw [hV, hF]; simp [Run.extend]
  · constructor
    · intro hmem
      rcases List.mem_append.mp hmem with h1 | h1
      · by_cases hc : ToLower (Ext f) = ".yml" ∨ ToLower (Ext f) = ".yaml"
        · simp [extensionWarnings, hc] at h1
        · exact ⟨fun h => hc (Or.inl h), fun h => hc (Or.inr h)⟩
      · exact absurd (extensionWarning_last f) (hinv _ h1)
    · rintro ⟨h1, h2⟩
      have hc : ¬ (ToLower (Ext f) = ".yml" ∨ ToLower (Ext f) = ".yaml") := by
        rintro (h | h)
        · exact h1 h
        · exact h2 h
      simp [extensionWarnings, hc]
  · intro p hp
    have hc : ToLower (Ext p) = ".yml" ∨ ToLower (Ext p) = ".yaml" := by
      rcases hp with h | h
      · left; rw [h]; decide
      · right; rw [h]; decide
    simp [extensionWarnings, hc]

/-- C14, at concrete inputs: `build.YML` and `build.txt` of the second sample
world have the same content; both are valid, and only `build.txt` gets the
extension warning. -/
theorem C14_extension_only_warns_witness :
    (ValidateFile sampleWorld2 "build.YML" (Run.start false)
        = (true, { v := { verbose := false, errors := [],
                          warnings := ["⚠ build.YML: Missing 'name' field (recommended)"] },
                   stdout := [] })
      ∧ ValidateFile sampleWorld2 "build.txt" (Run.start false)
        = (true, { v := { verbose := false, errors := [],
                          warnings := ["⚠ build.txt: File extension should be .yml or .yaml",
                                       "⚠ build.txt: Missing 'name' field (recommended)"] },
                   stdout := [] }))
    ∧ (ValidateFile sampleWorld2 "build.txt" (Run.start false)).1
        = (syntaxThenStructure sampleWorld2 "build.txt" (Run.start false)).1 :=
  ⟨⟨by decide, by decide⟩,
   (C14_extension_only_warns sampleWorld2 "build.txt" false (Run.start false) rfl).1⟩

/-- C15: `PrintSummary` leaves the validator (verbose, errors, warnings) unchanged
and only appends to the output: the banner and title; then, exactly when there
are warnings, the warnings header with their count followed by every warning in
order; then, when there are errors, the errors header with their count followed
by every error in order, and otherwise the success line; then the banner.  The
success line is part of what it prints if and only if the error list is empty. -/
theorem C15_print_summary_formats (r : Run) :
    (PrintSummary r).v = r.v
    ∧ ∃ out : List String,
        (PrintSummary r).stdout = r.stdout ++ out
        ∧ out = ["\n" ++ banner ++ "\n", "Validation Summary\n", banner ++ "\n"]
            ++ (if r.v.warnings = [] then []
                else ("\n⚠ Warnings (" ++ toString r.v.warnings.length ++ "):\n")
                        :: r.v.warnings.map (fun m => "  " ++ m ++ "\n"))
            ++ (if r.v.errors = [] then ["\n✓ All validations passed!\n"]
                else ("\n✗ Errors (" ++ toString r.v.errors.length ++ "):\n")
                        :: r.v.errors.map (fun m => "  " ++ m ++ "\n"))
            ++ [banner ++ "\n"]
        ∧ ("\n✓ All validations passed!\n" ∈ out ↔ r.v.errors = []) := by
  refine ⟨PrintSummary_v r, _, PrintSummary_stdout r, rfl, ?_⟩
  have hb1 : "\n✓ All validations passed!\n" ≠ "\n" ++ banner ++ "\n" := by decide
  have hb2 : "\n✓ All validations passed!\n" ≠ "Validation Summary\n" := by decide
  have hb3 : "\n✓ All validations passed!\n" ≠ banner ++ "\n" := by decide
  constructor
  · intro hmem
    by_contra hne
    simp only [if_neg hne, List.mem_append, List.mem_cons, List.mem_singleton,
      List.not_mem_nil, or_false, List.mem_map] at hmem
    rcases hmem with (((h | h | h) | h) | (h | h)) | h
    · exact hb1 h
    · exact hb2 h
    · exact hb3 h
    · by_cases hw : r.v.warnings = []
      · simp [hw] at h
      · simp only [if_neg hw, List.mem_cons, List.mem_map] at h
        rcases h with h | ⟨m, _, h⟩
        · exact success_ne_warnings_header _ h
        · exact success_ne_item m h.symm
    · exact success_ne_errors_header _ h
    · obtain ⟨m, _, h⟩ := h
      exact success_ne_item m h.symm
    · exact hb3 h
  · intro he
    simp [he]

/-- C16: the diagnostics are append-only.  For each of `ValidateYAMLSyntax`,
`ValidateWorkflowStructure`, `ValidateFile`, `ValidateDirectory` and one
iteration of the run loop, and every prior state, the errors before the call are
an initial segment of the errors after it, and likewise the warnings; and in both
loops the diagnostics left after the first paths of a list are an initial
segment of those left after the whole list, so the diagnostics of an earlier
file precede those of a later one. -/
theorem C16_append_only (w : World) :
    (∀ (f : String) (r : Run),
        r.v.errors <+: (ValidateYAMLSyntax w f r).2.v.errors
        ∧ r.v.warnings <+: (ValidateYAMLSyntax w f r).2.v.warnings)
    ∧ (∀ (f : String) (r : Run),
        r.v.errors <+: (ValidateWorkflowStructure w f r).2.v.errors
        ∧ r.v.warnings <+: (ValidateWorkflowStructure w f r).2.v.warnings)
    ∧ (∀ (f : String) (r : Run),
        r.v.errors <+: (ValidateFile w f r).2.v.errors
        ∧ r.v.warnings <+: (ValidateFile w f r).2.v.warnings)
    ∧ (∀ (d : String) (r : Run),
        r.v.errors <+: (ValidateDirectory w d r).2.v.errors
        ∧ r.v.warnings <+: (ValidateDirectory w d r).2.v.warnings)
    ∧ (∀ (p : String) (r : Run),
        r.v.errors <+: (processPath w p r).2.v.errors
        ∧ r.v.warnings <+: (processPath w p r).2.v.warnings)
    ∧ (∀ (ps qs : List String) (a : Bool) (r : Run),
        (validateFiles w ps a r).2.v.errors <+: (validateFiles w (ps ++ qs) a r).2.v.errors
        ∧ (validateFiles w ps a r).2.v.warnings
            <+: (validateFiles w (ps ++ qs) a r).2.v.warnings)
    ∧ (∀ (ps qs : List String) (a : Bool) (r : Run),
        (runLoop w ps a r).2.v.errors <+: (runLoop w (ps ++ qs) a r).2.v.errors
        ∧ (runLoop w ps a r).2.v.warnings <+: (runLoop w (ps ++ qs) a r).2.v.warnings) := by
  refine ⟨?_, ?_, ?_, ?_, ?_, ?_, ?_⟩
  · intro f r
    rw [ValidateYAMLSyntax_frame]
    exact ⟨extend_errors_initial _ _, extend_warnings_initial _ _⟩
  · intro f r
    rw [ValidateWorkflowStructure_frame]
    exact ⟨extend_errors_initial _ _, extend_warnings_initial _ _⟩
  · intro f r
    rw [ValidateFile_frame]
    exact ⟨extend_errors_initial _ _, extend_warnings_initial _ _⟩
  · intro d r
    rw [ValidateDirectory_frame]
    exact ⟨extend_errors_initial _ _, extend_warnings_initial _ _⟩
  · intro p r
    rw [processPath_frame]
    exact ⟨extend_errors_initial _ _, extend_warnings_initial _ _⟩
  · intro ps qs a r
    rw [validateFiles_append]
    obtain ⟨_, _, h3, h4, _⟩ := validateFiles_spec w qs (validateFiles w ps a r).1
      (validateFiles w ps a r).2
    rw [h3, h4]
    exact ⟨initial_append _ _, initial_append _ _⟩
  · intro ps qs a r
    rw [runLoop_append]
    obtain ⟨_, _, h3, h4, _⟩ := runLoop_spec w qs (runLoop w ps a r).1 (runLoop w ps a r).2
    rw [h3, h4]
    exact ⟨initial_append _ _, initial_append _ _⟩

/-- C17: each of `ValidateFile`, `ValidateYAMLSyntax` and
`ValidateWorkflowStructure` leaves the error list as it found it when it returns
true and appends exactly one error when it returns false; hence, when the walk
of an existing directory succeeds with the list `files`, the number of errors
`ValidateDirectory` appends is the number of files of the list whose validation
returns false, which is at most the length of the list. -/
theorem C17_one_error_per_file (w : World) :
    (∀ (f : String) (r : Run),
        ((ValidateFile w f r).1 = true → (ValidateFile w f r).2.v.errors = r.v.errors)
        ∧ ((ValidateFile w f r).1 = false →
            ∃ e, (ValidateFile w f r).2.v.errors = r.v.errors ++ [e]))
    ∧ (∀ (f : String) (r : Run),
        ((ValidateYAMLSyntax w f r).1 = true →
            (ValidateYAMLSyntax w f r).2.v.errors = r.v.errors)
        ∧ ((ValidateYAMLSyntax w f r).1 = false →
            ∃ e, (ValidateYAMLSyntax w f r).2.v.errors = r.v.errors ++ [e]))
    ∧ (∀ (f : String) (r : Run),
        ((ValidateWorkflowStructure w f r).1 = true →
            (ValidateWorkflowStructure w f r).2.v.errors = r.v.errors)
        ∧ ((ValidateWorkflowStructure w f r).1 = false →
            ∃ e, (ValidateWorkflowStructure w f r).2.v.errors = r.v.errors ++ [e]))
    ∧ (∀ (d : String) (files : List String) (r : Run),
        w.stat d = .ok true →
        collectWorkflowFiles (w.walkDir d) [] = .ok files →
        (ValidateDirectory w d r).2.v.errors.length
            = r.v.errors.length
              + files.countP (fun f => !(ValidateFile w f (Run.start r.v.verbose)).1)
        ∧ files.countP (fun f => !(ValidateFile w f (Run.start r.v.verbose)).1)
            ≤ files.length) := by
  refine ⟨?_, ?_, ?_, ?_⟩
  · intro f r
    exact one_error_of_frame (ValidateFile_frame w f r)
      (start_count_ValidateFile w f r.v.verbose)
  · intro f r
    exact one_error_of_frame (ValidateYAMLSyntax_frame w f r)
      (by simpa [Run.start, NewValidator]
            using ValidateYAMLSyntax_count w f (Run.start r.v.verbose))
  · intro f r
    exact one_error_of_frame (ValidateWorkflowStructure_frame w f r)
      (by simpa [Run.start, NewValidator]
            using ValidateWorkflowStructure_count w f (Run.start r.v.verbose))
  · intro d files r hstat hwalk
    refine ⟨?_, List.countP_le_length _⟩
    unfold ValidateDirectory
    simp only [hstat, hwalk, Bool.not_true, Bool.false_eq_true, if_false]
    by_cases h0 : files.length = 0
    · have hnil : files = [] := List.length_eq_zero.mp h0
      subst hnil
      simp
    · simp only [if_neg h0]
      obtain ⟨_, _, h3, _, _⟩ := validateFiles_spec w files true r
      rw [h3, List.length_append, flatMap_errors_length]

/-- C17, at a concrete input: over the three workflow files of the directory `wf`
of the sample world, of which one is invalid, exactly one error is appended. -/
theorem C17_one_error_per_file_witness :
    (ValidateDirectory sampleWorld "wf" (Run.start false)).2.v.errors.length = 1
    ∧ ((ValidateDirectory sampleWorld "wf" (Run.start false)).2.v.errors.length
        = (Run.start false).v.errors.length
          + ["wf/ok.yml", "wf/noon.yml", "wf/nosteps.yml"].countP
              (fun f => !(ValidateFile sampleWorld f (Run.start (Run.start false).v.verbose)).1)
      ∧ ["wf/ok.yml", "wf/noon.yml", "wf/nosteps.yml"].countP
              (fun f => !(ValidateFile sampleWorld f (Run.start (Run.start false).v.verbose)).1)
          ≤ ["wf/ok.yml", "wf/noon.yml", "wf/nosteps.yml"].length) :=
  ⟨by decide,
   (C17_one_error_per_file sampleWorld).2.2.2 "wf" ["wf/ok.yml", "wf/noon.yml", "wf/nosteps.yml"]
      (Run.start false) rfl rfl⟩

/-- C18: take two decoded documents with the same `on` entry whose `jobs` mappings
hold the same job entries in two different orders.  `ValidateWorkflowStructure`
returns the same boolean on both and appends the same number of errors, which is
zero or one. -/
theorem C18_job_order_irrelevant (w1 w2 : World) (f d1 d2 : String)
    (wf1 wf2 jobs1 jobs2 : GoMap) (r : Run)
    (hread1 : w1.readFile f = .ok d1) (hparse1 : w1.unmarshalMap d1 = .ok (some wf1))
    (hread2 : w2.readFile f = .ok d2) (hparse2 : w2.unmarshalMap d2 = .ok (some wf2))
    (hon : List.lookup "on" wf1 = List.lookup "on" wf2)
    (hj1 : List.lookup "jobs" wf1 = some (Value.map jobs1))
    (hj2 : List.lookup "jobs" wf2 = some (Value.map jobs2))
    (hperm : jobs1.Perm jobs2) :
    (ValidateWorkflowStructure w1 f r).1 = (ValidateWorkflowStructure w2 f r).1
    ∧ (ValidateWorkflowStructure w1 f r).2.v.errors.length
        = (ValidateWorkflowStructure w2 f r).2.v.errors.length
    ∧ ((ValidateWorkflowStructure w1 f r).2.v.errors.length = r.v.errors.length
        ∨ (ValidateWorkflowStructure w1 f r).2.v.errors.length = r.v.errors.length + 1) := by
  have hb : (ValidateWorkflowStructure w1 f r).1 = (ValidateWorkflowStructure w2 f r).1 := by
    rw [ValidateWorkflowStructure_of_parsed w1 f d1 wf1 r hread1 hparse1,
        ValidateWorkflowStructure_of_parsed w2 f d2 wf2 r hread2 hparse2]
    rw [Bool.eq_iff_iff, checkWorkflow_true_iff, checkWorkflow_true_iff]
    exact ⟨WorkflowWellFormed_perm wf1 wf2 jobs1 jobs2 hon hj1 hj2 hperm,
           WorkflowWellFormed_perm wf2 wf1 jobs2 jobs1 hon.symm hj2 hj1 hperm.symm⟩
  have c1 := ValidateWorkflowStructure_count w1 f r
  have c2 := ValidateWorkflowStructure_count w2 f r
  rw [← hb] at c2
  refine ⟨hb, by rw [c1, c2], ?_⟩
  rw [c1]
  cases (ValidateWorkflowStructure w1 f r).1 <;> simp

/-- C18, at a concrete input: `two.yml` with its jobs in the order first, second
and in the order second, first; both runs fail with one error (the second run
reaches the invalid job only after the valid one). -/
theorem C18_job_order_irrelevant_witness :
    ((ValidateWorkflowStructure sampleWorld "two.yml" (Run.start false)).2.v.errors
        = ["✗ two.yml: Job 'first' missing required 'steps' field"]
      ∧ (ValidateWorkflowStructure sampleWorldSwapped "two.yml" (Run.start false)).2.v.errors
        = ["✗ two.yml: Job 'first' missing required 'steps' field"])
    ∧ (ValidateWorkflowStructure sampleWorld "two.yml" (Run.start false)).1
        = (ValidateWorkflowStructure sampleWorldSwapped "two.yml" (Run.start false)).1
    ∧ (ValidateWorkflowStructure sampleWorld "two.yml" (Run.start false)).2.v.errors.length
        = (ValidateWorkflowStructure sampleWorldSwapped "two.yml"
            (Run.start false)).2.v.errors.length
    ∧ ((ValidateWorkflowStructure sampleWorld "two.yml" (Run.start false)).2.v.errors.length
          = (Run.start false).v.errors.length
        ∨ (ValidateWorkflowStructure sampleWorld "two.yml" (Run.start false)).2.v.errors.length
          = (Run.start false).v.errors.length + 1) :=
  ⟨⟨by decide, by decide⟩,
   C18_job_order_irrelevant sampleWorld sampleWorldSwapped "two.yml" "two.yml" "two.yml"
    [("on", Value.scalar "push"),
     ("jobs", Value.map [("first", Value.map [("runs-on", Value.scalar "ubuntu")]),
                         ("second", sampleJob)])]
    [("on", Value.scalar "push"),
     ("jobs", Value.map [("second", sampleJob),
                         ("first", Value.map [("runs-on", Value.scalar "ubuntu")])])]
    _ _ (Run.start false) rfl rfl rfl rfl rfl rfl rfl (List.Perm.swap _ _ _)⟩

/-- C19: directory validation never emits the extension warning.  Every path the
walk of `ValidateDirectory` collects has a lower-cased extension equal to `.yml`
or `.yaml`, so a path with any other extension is not in the list that is
validated; on every collected path the extension test of `ValidateFile` changes
nothing; and for every directory path and prior state, none of the warnings
`ValidateDirectory` appends is an extension warning, of whatever path. -/
theorem C19_no_extension_warning_in_directory (w : World) (dir : String) (r : Run) :
    (∀ files : List String,
        collectWorkflowFiles (w.walkDir dir) [] = .ok files →
        (∀ f ∈ files, ToLower (Ext f) = ".yml" ∨ ToLower (Ext f) = ".yaml")
        ∧ (∀ p : String, ¬ (ToLower (Ext p) = ".yml" ∨ ToLower (Ext p) = ".yaml") → p ∉ files)
        ∧ (∀ f ∈ files, ∀ r1 : Run, checkExtension f r1 = r1))
    ∧ ∃ ws : List String,
        (ValidateDirectory w dir r).2.v.warnings = r.v.warnings ++ ws
        ∧ ∀ p : String, ("⚠ " ++ p ++ ": File extension should be .yml or .yaml") ∉ ws := by
  constructor
  · intro files hc
    have hall := collectWorkflowFiles_ext (w.walkDir dir) [] files hc
      (by intro f hf; cases hf)
    exact ⟨hall, fun p hp hmem => hp (hall p hmem),
           fun f hf r1 => checkExtension_of_workflow f r1 (hall f hf)⟩
  · refine ⟨(ValidateDirectory w dir (Run.start r.v.verbose)).2.v.warnings, ?_, ?_⟩
    · rw [ValidateDirectory_frame]; rfl
    · intro p hmem
      have hinv := ValidateDirectory_inv w dir (Run.start r.v.verbose)
        (by intro x hx; cases hx)
      exact hinv _ hmem (extensionWarning_last p)

/-- C19, at a concrete input: the walk of the directory `wf` of the sample world
passes `wf/notes.txt` by, and the three warnings of the run carry no extension
warning. -/
theorem C19_no_extension_warning_in_directory_witness :
    (collectWorkflowFiles (sampleWorld.walkDir "wf") []
        = .ok ["wf/ok.yml", "wf/noon.yml", "wf/nosteps.yml"]
      ∧ (ValidateDirectory sampleWorld "wf" (Run.start false)).2.v.warnings
        = ["⚠ wf/ok.yml: Missing 'name' field (recommended)",
           "⚠ wf/noon.yml: Missing 'name' field (recommended)",
           "⚠ wf/nosteps.yml: Job 'idle' has no steps"])
    ∧ ((∀ f ∈ ["wf/ok.yml", "wf/noon.yml", "wf/nosteps.yml"],
          ToLower (Ext f) = ".yml" ∨ ToLower (Ext f) = ".yaml")
      ∧ (∀ p : String, ¬ (ToLower (Ext p) = ".yml" ∨ ToLower (Ext p) = ".yaml") →
          p ∉ ["wf/ok.yml", "wf/noon.yml", "wf/nosteps.yml"])
      ∧ (∀ f ∈ ["wf/ok.yml", "wf/noon.yml", "wf/nosteps.yml"],
          ∀ r1 : Run, checkExtension f r1 = r1)) :=
  ⟨⟨rfl, by decide⟩,
   (C19_no_extension_warning_in_directory sampleWorld "wf" (Run.start false)).1
      ["wf/ok.yml", "wf/noon.yml", "wf/nosteps.yml"] rfl⟩

end ValidateWorkflows
